import Mathlib

/-!
# BMP280 driver (BMP280.go): shallow embedding and verified properties

The Go package `bmp280` drives a BMP280 pressure/temperature sensor over I2C.
This development embeds

* the fixed-width integer arithmetic of Go (`int32`, `uint32`, `byte`) as `Int`/`Nat`
  with explicit wrap-around,
* the I2C bus as a script of responses consumed by `Open`, `WriteReg`, `ReadReg`,
  together with a trace of the operations the driver performs,
* the package-level variables `Cal`, `b1`, `b3`, `b24` as fields of the state,

and proves properties of `VerifiySensorID`, `ReadCoeff`, `getOversamplingRate`,
`ReadUncompTemprature`, `ReadUncompPressure` and `ReadPressurePa`, among them that the
two raw reads refine the measurement state machine of the specification (`specStep`).
Calls of `log.Println` have no effect on values or bus traffic and are left out.
-/

namespace BMP280

/-! ## Register map (const block, lines 33-46) -/

def BMP280_ID_REG : Nat := 0xD0
def BMP280_STATUS_REG : Nat := 0xF3
def BMP280_CNTR_MEAS_REG : Nat := 0xF4
def BMP280_CONFIG : Nat := 0xF5
def BMP280_RESET : Nat := 0xE0
def BMP280_COEF_START : Nat := 0x88
def BMP280_COEF_BYTES : Nat := 12 * 2
def BMP280_PRES_3BYTES : Nat := 0xF7
def BMP280_TEMP_3BYTES : Nat := 0xFA

/-! ## Go machine integers -/

/-- Two's-complement reduction of an integer to the `int32` range. -/
def wrap32 (x : Int) : Int := (x + 2147483648) % 4294967296 - 2147483648

/-- Two's-complement reduction of an integer to the `int16` range. -/
def wrap16 (x : Int) : Int := (x + 32768) % 65536 - 32768

/-- Go `int32` addition. -/
def add32 (a b : Int) : Int := wrap32 (a + b)

/-- Go `int32` subtraction. -/
def sub32 (a b : Int) : Int := wrap32 (a - b)

/-- Go `int32` multiplication. -/
def mul32 (a b : Int) : Int := wrap32 (a * b)

/-- Go `int32` left shift by a constant. -/
def shl32 (a : Int) (k : Nat) : Int := wrap32 (a * 2 ^ k)

/-- Go `int32` right shift by a constant: arithmetic, rounding towards minus infinity. -/
def sar32 (a : Int) (k : Nat) : Int := a / 2 ^ k

/-- Conversion `uint32(x)` of an `int32`. -/
def toU32 (x : Int) : Nat := (x % 4294967296).toNat

/-- Conversion `int32(p)` of a `uint32`. -/
def toI32 (p : Nat) : Int := wrap32 (p : Int)

/-- Go `uint32` multiplication. -/
def umul32 (a b : Nat) : Nat := (a * b) % 4294967296

/-- Go `uint32` left shift by a constant. -/
def ushl32 (a : Nat) (k : Nat) : Nat := (a * 2 ^ k) % 4294967296

/-- Go `uint32` right shift by a constant. -/
def ushr32 (a : Nat) (k : Nat) : Nat := a / 2 ^ k

/-- Go `uint32` division; `none` is the run-time panic on a zero divisor. -/
def udiv32 (a d : Nat) : Option Nat := if d = 0 then none else some (a / d)

/-- Go `byte` left shift by a constant. -/
def shl8 (a : Nat) (k : Nat) : Nat := (a * 2 ^ k) % 256

/-! ## Calibration coefficients (type BMP280COEFF, lines 49-63) -/

/-- The struct `BMP280COEFF`: `Dig_T1` and `Dig_P1` are `uint16`, the others `int16`. -/
structure BMP280COEFF where
  Dig_T1 : Nat
  Dig_T2 : Int
  Dig_T3 : Int
  Dig_P1 : Nat
  Dig_P2 : Int
  Dig_P3 : Int
  Dig_P4 : Int
  Dig_P5 : Int
  Dig_P6 : Int
  Dig_P7 : Int
  Dig_P8 : Int
  Dig_P9 : Int
deriving DecidableEq, Repr

/-! ## Compensation arithmetic of ReadPressurePa (lines 235-263) -/

/-- Line 237: first temperature term. -/
def tempVar1 (cal : BMP280COEFF) (adc_T : Int) : Int :=
  sar32 (mul32 (sub32 (sar32 adc_T 3) (shl32 (cal.Dig_T1 : Int) 1)) cal.Dig_T2) 11

/-- Line 238: second temperature term. -/
def tempVar2 (cal : BMP280COEFF) (adc_T : Int) : Int :=
  sar32 (mul32 (sar32 (mul32 (sub32 (sar32 adc_T 4) (cal.Dig_T1 : Int))
    (sub32 (sar32 adc_T 4) (cal.Dig_T1 : Int))) 12) cal.Dig_T3) 14

/-- Line 239: `t_fine = var1 + var2`. -/
def tFine (cal : BMP280COEFF) (adc_T : Int) : Int :=
  add32 (tempVar1 cal adc_T) (tempVar2 cal adc_T)

/-- Line 240: `T = (t_fine * 5 + 128) >> 8`. -/
def tempT (cal : BMP280COEFF) (adc_T : Int) : Int :=
  sar32 (add32 (mul32 (tFine cal adc_T) 5) 128) 8

/-- Line 243: `var1 = (t_fine >> 1) - 64000`. -/
def presVar1a (t_fine : Int) : Int := sub32 (sar32 t_fine 1) 64000

/-- Lines 244-246: the value of `var2` entering the pressure formula. -/
def presVar2 (cal : BMP280COEFF) (t_fine : Int) : Int :=
  let var1 := presVar1a t_fine
  let var2 := mul32 (sar32 (mul32 (sar32 var1 2) (sar32 var1 2)) 11) cal.Dig_P6
  let var2 := add32 var2 (shl32 (mul32 var1 cal.Dig_P5) 1)
  add32 (sar32 var2 2) (shl32 cal.Dig_P4 16)

/-- Lines 247-248: the first-stage denominator `var1` tested on line 249. -/
def presVar1 (cal : BMP280COEFF) (t_fine : Int) : Int :=
  let var1 := presVar1a t_fine
  let var1 := sar32 (add32 (sar32 (mul32 cal.Dig_P3
    (sar32 (mul32 (sar32 var1 2) (sar32 var1 2)) 13)) 3)
    (sar32 (mul32 cal.Dig_P2 var1) 1)) 18
  sar32 (mul32 (add32 32768 var1) (cal.Dig_P1 : Int)) 15

/-- Line 253: `p = 3125 * uint32((1048576 - adc_P) - (var2 >> 12))`. -/
def presP0 (var2 adc_P : Int) : Nat :=
  umul32 3125 (toU32 (sub32 (sub32 1048576 adc_P) (sar32 var2 12)))

/-- Lines 259-261: the two correction terms applied to the quotient `p`. -/
def presFinal (cal : BMP280COEFF) (p : Nat) : Nat :=
  let var1 := sar32 (mul32 cal.Dig_P9
    (toI32 (ushr32 (umul32 (ushr32 p 3) (ushr32 p 3)) 13))) 12
  let var2 := sar32 (mul32 (toI32 (ushr32 p 2)) cal.Dig_P8) 13
  toU32 (add32 (toI32 p) (sar32 (add32 (add32 var1 var2) cal.Dig_P7) 4))

/-- Outcome of the arithmetic of lines 235-263.  `value` is the pressure returned
(always together with a nil error); `none` stands for a division-by-zero panic.
`divisors` lists the divisor of every `uint32` division executed, in order. -/
structure Calc where
  value : Option Nat
  divisors : List Nat
deriving DecidableEq, Repr

/-- Lines 235-263 of `ReadPressurePa` as a function of `Cal`, `adc_T` and `adc_P`. -/
def pressureCalc (cal : BMP280COEFF) (adc_T adc_P : Int) : Calc :=
  let t_fine := tFine cal adc_T
  let var2 := presVar2 cal t_fine
  let var1 := presVar1 cal t_fine
  if var1 = 0 then
    { value := some 0, divisors := [] }
  else
    let p := presP0 var2 adc_P
    let d := toU32 var1
    let q := if p < 0x80000000 then udiv32 (ushl32 p 1) d
             else (udiv32 p d).map (fun x => umul32 x 2)
    { value := q.map (presFinal cal), divisors := [d] }

/-- The coefficients of the datasheet's worked example. -/
def datasheetCal : BMP280COEFF :=
  { Dig_T1 := 27504, Dig_T2 := 26435, Dig_T3 := -1000,
    Dig_P1 := 36477, Dig_P2 := -10685, Dig_P3 := 3024, Dig_P4 := 2855, Dig_P5 := 140,
    Dig_P6 := -7, Dig_P7 := 15500, Dig_P8 := -14600, Dig_P9 := 6000 }

/-! ## The I2C bus and the package-level state -/

/-- A Go `error` value coming from the I2C package, identified by a code; the nil
error is `none : Option GoError`. -/
abbrev GoError := Nat

/-- One response of the bus to `Open`, `WriteReg` or `ReadReg`.  For a register
read `data` holds the bytes delivered; `Open` and `WriteReg` ignore it. -/
inductive Resp where
  | ok (data : List Nat)
  | fail (e : GoError)
deriving DecidableEq, Repr

/-- Operations the driver performs on the bus, and its sleeps, in program order. -/
inductive Ev where
  | open (dev : String) (addr : Int) (ok : Bool)
  | close
  | write (reg : Nat) (data : List Nat) (ok : Bool)
  | read (reg : Nat) (len : Nat) (res : Option (List Nat))
  | sleep (ms : Nat)
deriving DecidableEq, Repr

/-- Package-level variables of lines 65-73 that the driver uses (`Cal`, `b1`, `b3`,
`b24`), the responses the bus will give (`script`), the operations performed so far
(`trace`), and whether `Close` on the nil device returned by a failed `Open`
panics (`nilClosePanics`; a property of the imported i2c package). -/
structure World where
  script : List Resp
  trace : List Ev
  Cal : BMP280COEFF
  b1 : List Nat
  b3 : List Nat
  b24 : List Nat
  nilClosePanics : Bool
deriving DecidableEq, Repr

/-- Result of running a driver function: a normal return with its values, or a
run-time panic; both carry the state reached. -/
inductive Outcome (α : Type) where
  | ret (v : α) (w : World)
  | panic (w : World)
deriving DecidableEq, Repr

/-- State reached by an outcome. -/
def Outcome.world {α : Type} : Outcome α → World
  | Outcome.ret _ w => w
  | Outcome.panic w => w

/-- Values returned by an outcome, if it is a normal return. -/
def Outcome.value {α : Type} : Outcome α → Option α
  | Outcome.ret v _ => some v
  | Outcome.panic _ => none

/-- Next response of the bus; an exhausted script answers with an error. -/
def nextResp (w : World) : Resp × List Resp :=
  match w.script with
  | [] => (Resp.fail 0, [])
  | r :: rest => (r, rest)

/-- Record an event. -/
def World.emit (w : World) (e : Ev) : World := { w with trace := w.trace ++ [e] }

/-- The call `i2c.Open(&i2c.Devfs{Dev:d},a)`: returns the error (nil on success). -/
def i2cOpen (d : String) (a : Int) (w : World) : Option GoError × World :=
  match nextResp w with
  | (Resp.ok _, rest) => (none, { w with script := rest }.emit (Ev.open d a true))
  | (Resp.fail e, rest) => (some e, { w with script := rest }.emit (Ev.open d a false))

/-- The call `i2c0.WriteReg(reg, data)`. -/
def i2cWriteReg (reg : Nat) (data : List Nat) (w : World) : Option GoError × World :=
  match nextResp w with
  | (Resp.ok _, rest) => (none, { w with script := rest }.emit (Ev.write reg data true))
  | (Resp.fail e, rest) => (some e, { w with script := rest }.emit (Ev.write reg data false))

/-- The `len` bytes a successful register read stores in its buffer. -/
def delivered (len : Nat) (data : List Nat) : List Nat :=
  (List.range len).map (fun i => data.getD i 0 % 256)

/-- The call `i2c0.ReadReg(reg, buf)` for a buffer of `len` bytes whose content is
`buf`: returns the error and the new content of the buffer.  The buffers are
allocated once (lines 68-72) with lengths 1, 3 and 24 and never resliced.  A failed
read leaves the buffer as it was. -/
def i2cReadReg (reg len : Nat) (buf : List Nat) (w : World) :
    Option GoError × List Nat × World :=
  match nextResp w with
  | (Resp.ok data, rest) =>
      (none, delivered len data,
        { w with script := rest }.emit (Ev.read reg len (some (delivered len data))))
  | (Resp.fail e, rest) =>
      (some e, buf, { w with script := rest }.emit (Ev.read reg len none))

/-- The call `time.Sleep(ms * time.Millisecond)`. -/
def timeSleep (ms : Nat) (w : World) : World := w.emit (Ev.sleep ms)

/-- The deferred `i2c0.Close()` run when a function returns value `r`.  After a
successful `Open` it closes the handle; after a failed one `i2c0` is nil.  In the i2c
package `Close` reads a field of the device, so on nil it panics: that is the case
`nilClosePanics = true`, the one of `initWorld`.  The other case describes a package
whose `Close` tolerates nil and is kept only to show what the return statements alone
would give. -/
def deferredClose {α : Type} (opened : Bool) (r : α) (w : World) : Outcome α :=
  if opened then Outcome.ret r (w.emit Ev.close)
  else if w.nilClosePanics then Outcome.panic w
  else Outcome.ret r w

/-! ## ReadCoeff (lines 99-112) -/

/-- Little-endian `uint16` at offset `i`: `binary.LittleEndian.Uint16`. -/
def le16 (b : List Nat) (i : Nat) : Nat :=
  (b.getD i 0 % 256) ||| ((b.getD (i + 1) 0 % 256) <<< 8)

/-- Conversion `int16(u)` of a `uint16`. -/
def toI16 (u : Nat) : Int := wrap16 (u : Int)

/-- Decoding of `binary.Read(buf, binary.LittleEndian, &Cal)` on a full block: the
fields are filled in declaration order, two bytes each. -/
def decodeCoeff (b : List Nat) : BMP280COEFF :=
  { Dig_T1 := le16 b 0
    Dig_T2 := toI16 (le16 b 2)
    Dig_T3 := toI16 (le16 b 4)
    Dig_P1 := le16 b 6
    Dig_P2 := toI16 (le16 b 8)
    Dig_P3 := toI16 (le16 b 10)
    Dig_P4 := toI16 (le16 b 12)
    Dig_P5 := toI16 (le16 b 14)
    Dig_P6 := toI16 (le16 b 16)
    Dig_P7 := toI16 (le16 b 18)
    Dig_P8 := toI16 (le16 b 20)
    Dig_P9 := toI16 (le16 b 22) }

/-- The call `binary.Read(bytes.NewReader(b), binary.LittleEndian, &Cal)`: with fewer
than 24 bytes available it fails and leaves `Cal` as it was. -/
def binaryRead (b : List Nat) (cal : BMP280COEFF) : Option GoError × BMP280COEFF :=
  if b.length < BMP280_COEF_BYTES then (some 1, cal) else (none, decodeCoeff b)

/-- The function `ReadCoeff`: the errors of `ReadReg` and of `binary.Read` are dropped. -/
def ReadCoeff (d : String) (a : Int) (w : World) : Outcome (Option GoError) :=
  match i2cOpen d a w with
  | (some err, w1) => deferredClose false (some err) w1
  | (none, w1) =>
    match i2cReadReg BMP280_COEF_START BMP280_COEF_BYTES w1.b24 w1 with
    | (_, b24, w2) =>
      let w3 := { w2 with b24 := b24 }
      let w4 := { w3 with Cal := (binaryRead w3.b24 w3.Cal).2 }
      deferredClose true none w4

/-! ## getOversamplingRate (lines 115-130) -/

/-- The function `getOversamplingRate`. -/
def getOversamplingRate (accuracy : String) : Nat :=
  if accuracy = "ULTRA_LOW" then 1
  else if accuracy = "LOW" then 2
  else if accuracy = "STANDARD" then 3
  else if accuracy = "HIGH" then 4
  else if accuracy = "ULTRA_HIGH" then 5
  else 1

/-! ## ReadUncompTemprature and ReadUncompPressure (lines 133-215) -/

/-- Lines 168 and 212: `int32(b3[0])<<12 + int32(b3[1])<<4 + int32(b3[2]&0xF0)>>4`
(in Go the shifts bind tighter than `+`). -/
def decodeRaw (b3 : List Nat) : Int :=
  add32 (add32 (shl32 ((b3.getD 0 0 : Nat) : Int) 12) (shl32 ((b3.getD 1 0 : Nat) : Int) 4))
    (sar32 ((b3.getD 2 0 &&& 0xF0 : Nat) : Int) 4)

/-- The loop `for n:=0;n<30;n++` of lines 149-162 and 192-206 with `fuel` iterations
left.  Returns `some err` when the body returned `0, err`, and `none` when the loop
was left by `break` or by exhausting its iterations. -/
def pollLoop : Nat → World → Option GoError × World
  | 0, w => (none, w)
  | fuel + 1, w =>
    match i2cReadReg BMP280_STATUS_REG 1 w.b1 w with
    | (some err, b1, w1) => (some err, { w1 with b1 := b1 })
    | (none, b1, w1) =>
      let w2 := { w1 with b1 := b1 }
      let w3 := { w2 with b1 := w2.b1.set 0 (w2.b1.getD 0 0 &&& 0x8) }
      if w3.b1.getD 0 0 = 0 then (none, w3)
      else pollLoop fuel (timeSleep 5 w3)

/-- The body shared textually by both raw reads after a successful `Open`: trigger
with `power|(osr<<shift)`, poll, read three bytes from `dataReg`, decode. -/
def triggerPollRead (shift dataReg : Nat) (accuracy : String) (w : World) :
    (Int × Option GoError) × World :=
  let power : Nat := 1
  let osr := getOversamplingRate accuracy
  match i2cWriteReg BMP280_CNTR_MEAS_REG [power ||| shl8 osr shift] w with
  | (some err, w1) => ((0, some err), w1)
  | (none, w1) =>
    match pollLoop 30 w1 with
    | (some err, w2) => ((0, some err), w2)
    | (none, w2) =>
      match i2cReadReg dataReg 3 w2.b3 w2 with
      | (some err, b3, w3) => ((0, some err), { w3 with b3 := b3 })
      | (none, b3, w3) =>
        let w4 := { w3 with b3 := b3 }
        ((decodeRaw w4.b3, none), w4)

/-- The function `ReadUncompTemprature`. -/
def ReadUncompTemprature (d : String) (a : Int) (accuracy : String) (w : World) :
    Outcome (Int × Option GoError) :=
  match i2cOpen d a w with
  | (some err, w1) => deferredClose false (0, some err) w1
  | (none, w1) =>
    match triggerPollRead 5 BMP280_TEMP_3BYTES accuracy w1 with
    | (r, w2) => deferredClose true r w2

/-- The function `ReadUncompPressure`. -/
def ReadUncompPressure (d : String) (a : Int) (accuracy : String) (w : World) :
    Outcome (Int × Option GoError) :=
  match i2cOpen d a w with
  | (some err, w1) => deferredClose false (0, some err) w1
  | (none, w1) =>
    match triggerPollRead 2 BMP280_PRES_3BYTES accuracy w1 with
    | (r, w2) => deferredClose true r w2

/-! ## VerifiySensorID (lines 76-96) -/

/-- The function `VerifiySensorID`. -/
def VerifiySensorID (d : String) (a : Int) (w : World) : Outcome Bool :=
  match i2cOpen d a w with
  | (some _, w1) => deferredClose false false w1
  | (none, w1) =>
    match i2cReadReg BMP280_ID_REG 1 w1.b1 w1 with
    | (some _, b1, w2) => deferredClose true false { w2 with b1 := b1 }
    | (none, b1, w2) =>
      let w3 := { w2 with b1 := b1 }
      if w3.b1.getD 0 0 ≠ 0x58 then deferredClose true false w3
      else deferredClose true true w3

/-! ## ReadPressurePa (lines 219-263) -/

/-- The function `ReadPressurePa`. -/
def ReadPressurePa (d : String) (a : Int) (accuracy : String) (w : World) :
    Outcome (Nat × Option GoError) :=
  match ReadUncompTemprature d a accuracy w with
  | Outcome.panic w1 => Outcome.panic w1
  | Outcome.ret (_, some err) w1 => Outcome.ret (0, some err) w1
  | Outcome.ret (adc_T, none) w1 =>
    match ReadUncompPressure d a accuracy w1 with
    | Outcome.panic w2 => Outcome.panic w2
    | Outcome.ret (_, some err) w2 => Outcome.ret (0, some err) w2
    | Outcome.ret (adc_P, none) w2 =>
      match ReadCoeff d a w2 with
      | Outcome.panic w3 => Outcome.panic w3
      | Outcome.ret (some err) w3 => Outcome.ret (0, some err) w3
      | Outcome.ret none w3 =>
        match (pressureCalc w3.Cal adc_T adc_P).value with
        | none => Outcome.panic w3
        | some p => Outcome.ret (p, none) w3

/-! ## Observations on traces -/

/-- Events a call added to the trace: those of `w1` beyond the trace of `w0`. -/
def callEvents (w0 w1 : World) : List Ev := w1.trace.drop w0.trace.length

/-- Is the event a read of the status register? -/
def isStatusRead : Ev → Bool
  | Ev.read reg _ _ => decide (reg = BMP280_STATUS_REG)
  | _ => false

/-- Is the event a successful read of the status register with bit 3 set? -/
def isBusyRead : Ev → Bool
  | Ev.read reg _ (some bs) => decide (reg = BMP280_STATUS_REG ∧ bs.getD 0 0 &&& 0x8 ≠ 0)
  | _ => false

/-- Is the event a sleep? -/
def isSleep : Ev → Bool
  | Ev.sleep _ => true
  | _ => false

/-- Is the event a register read or write? -/
def isRegOp : Ev → Bool
  | Ev.read _ _ _ => true
  | Ev.write _ _ _ => true
  | _ => false

/-- The twelve fields of `BMP280COEFF` in declaration order, as integers. -/
def coeffFields (cal : BMP280COEFF) : List Int :=
  [(cal.Dig_T1 : Int), cal.Dig_T2, cal.Dig_T3, (cal.Dig_P1 : Int), cal.Dig_P2, cal.Dig_P3,
   cal.Dig_P4, cal.Dig_P5, cal.Dig_P6, cal.Dig_P7, cal.Dig_P8, cal.Dig_P9]

/-- Two's-complement reading of a 16-bit pattern `u < 65536` as a signed value. -/
def twosComplement16 (u : Nat) : Int := if u < 32768 then (u : Int) else (u : Int) - 65536

/-- World after a successful status read delivering `x`, with `b1[0]` masked. -/
def afterStatus (w : World) (x : List Nat) (rest : List Resp) : World :=
  { w with script := rest,
           trace := w.trace ++ [Ev.read BMP280_STATUS_REG 1 (some [x.getD 0 0 % 256])],
           b1 := [x.getD 0 0 % 256 &&& 0x8] }

/-- Is the event a bus operation that failed? -/
def isFailedOp : Ev → Bool
  | Ev.open _ _ ok => !ok
  | Ev.write _ _ ok => !ok
  | Ev.read _ _ res => res.isNone
  | _ => false

/-- Bounds on the polling events `evs`: at most `n` status reads, at most `n`
sleeps, as many sleeps as status reads that came back with bit 3 set, and every sleep
lasts 5 ms. -/
def PollBound (evs : List Ev) (n : Nat) : Prop :=
  evs.countP isStatusRead ≤ n ∧ evs.countP isSleep ≤ n ∧
  evs.countP isSleep = evs.countP isBusyRead ∧
  ∀ e ∈ evs, isSleep e = true → e = Ev.sleep 5

/-- Common shape of `ReadUncompTemprature` and `ReadUncompPressure`: open, run the
shared body with the given shift and data register, close. -/
def rawRead (shift dataReg : Nat) (d : String) (a : Int) (accuracy : String) (w : World) :
    Outcome (Int × Option GoError) :=
  match i2cOpen d a w with
  | (some err, w1) => deferredClose false (0, some err) w1
  | (none, w1) =>
    match triggerPollRead shift dataReg accuracy w1 with
    | (r, w2) => deferredClose true r w2

/-- Bus responses of one raw read on a sensor that stays busy: 30 status bytes 0x08,
then the data bytes 0x7E, 0xED, 0x00. -/
def busyScript : List Resp :=
  Resp.ok [] :: Resp.ok [] ::
    ((List.replicate 30 [0x08]).map Resp.ok ++ Resp.ok [0x7E, 0xED, 0x00] :: [])

/-- Does the response following a successful `Open` deliver the identity byte 0x58? -/
def idMatches : List Resp → Bool
  | Resp.ok idb :: _ => decide (idb.getD 0 0 % 256 = 0x58)
  | _ => false

/-- Effect of an event on the number of open handles: a successful `Open` adds one,
`Close` releases one; `none` records a `Close` issued while no handle was open. -/
def handleStep : Option Nat → Ev → Option Nat
  | none, _ => none
  | some n, Ev.open _ _ true => some (n + 1)
  | some 0, Ev.close => none
  | some (n + 1), Ev.close => some n
  | some n, _ => some n

/-- Number of handles open after the events `evs`, starting with none open. -/
def handlesAfter (evs : List Ev) : Option Nat := evs.foldl handleStep (some 0)

/-- Does the event open or close a handle? -/
def isHandleEv : Ev → Bool
  | Ev.open _ _ true => true
  | Ev.close => true
  | _ => false

/-! ## The measurement state machine of the specification -/

/-- States of the specification's measurement state machine:
`Idle -> Triggered -> Polling -> Complete`, or `Failed` on a transport error.
`polling i` has seen the busy flag set `i` times; `converted` means the poll loop is over
(flag clear, or 30 iterations used) and the raw value is still to be read. -/
inductive AcqState where
  | idle
  | triggered
  | polling (i : Nat)
  | converted
  | complete (raw : Nat)
  | failed (e : GoError)
deriving DecidableEq, Repr

/-- One step of the specification's shared acquisition sequence, parameterised by the
shift of the oversampling field and by the data register.  Trigger: write
`forced(1) | (oversampling << shift)` to the control register.  Poll: up to 30
iterations, each reading the status register and masking bit 3; clear ends the loop,
set sleeps 5 ms and retries; after 30 busy iterations the machine proceeds anyway.
Read: three bytes from the data register, decoded as
`byte0<<12 | byte1<<4 | (byte2>>4)`.  Any transport error aborts to `failed`.  The
machine keeps the bytes it reads to itself and touches the bus only. -/
def specStep (shift dataReg : Nat) (accuracy : String) : AcqState × World → AcqState × World
  | (AcqState.idle, w) =>
    match i2cWriteReg BMP280_CNTR_MEAS_REG [1 ||| (getOversamplingRate accuracy <<< shift)] w with
    | (some e, w1) => (AcqState.failed e, w1)
    | (none, w1) => (AcqState.triggered, w1)
  | (AcqState.triggered, w) => (AcqState.polling 0, w)
  | (AcqState.polling i, w) =>
    if 30 ≤ i then (AcqState.converted, w)
    else
      match i2cReadReg BMP280_STATUS_REG 1 [] w with
      | (some e, _, w1) => (AcqState.failed e, w1)
      | (none, bs, w1) =>
        if bs.getD 0 0 &&& 0x8 = 0 then (AcqState.converted, w1)
        else (AcqState.polling (i + 1), timeSleep 5 w1)
  | (AcqState.converted, w) =>
    match i2cReadReg dataReg 3 [] w with
    | (some e, _, w1) => (AcqState.failed e, w1)
    | (none, bs, w1) =>
      (AcqState.complete (bs.getD 0 0 <<< 12 ||| bs.getD 1 0 <<< 4 ||| bs.getD 2 0 >>> 4), w1)
  | (AcqState.complete raw, w) => (AcqState.complete raw, w)
  | (AcqState.failed e, w) => (AcqState.failed e, w)

/-- The state machine run for `fuel` steps. -/
def specRun (shift dataReg : Nat) (accuracy : String) :
    Nat → AcqState × World → AcqState × World
  | 0, s => s
  | fuel + 1, s => specRun shift dataReg accuracy fuel (specStep shift dataReg accuracy s)

/-- Result reported by a terminal state: the raw value, or the transport error. -/
def specResult : AcqState → Option (Int × Option GoError)
  | AcqState.complete raw => some ((raw : Int), none)
  | AcqState.failed e => some (0, some e)
  | _ => none

/-- The specification's shared acquisition (sections 4.3, 5 and 7): open the transport;
if that fails, the transport error is returned to the caller and there is no handle to
release; otherwise run the state machine to a terminal state, release the handle and
return the machine's result.  34 steps are enough for the machine to reach a terminal
state; `panic` would stand for a machine still running after them. -/
def specAcquire (shift dataReg : Nat) (d : String) (a : Int) (accuracy : String) (w : World) :
    Outcome (Int × Option GoError) :=
  match i2cOpen d a w with
  | (some err, w1) => Outcome.ret (0, some err) w1
  | (none, w1) =>
    match specRun shift dataReg accuracy 34 (AcqState.idle, w1) with
    | (st, w2) =>
      match specResult st with
      | some r => Outcome.ret r (w2.emit Ev.close)
      | none => Outcome.panic w2

/-- Two states that agree on the bus: responses to come, operations performed, and
the behaviour of Close on a nil device. -/
def BusEq (w ws : World) : Prop :=
  w.script = ws.script ∧ w.trace = ws.trace ∧ w.nilClosePanics = ws.nilClosePanics

/-- State in which the poll loop leaves the machine: `failed` on an error, else `converted`. -/
def pollEnd : Option GoError → AcqState
  | some e => AcqState.failed e
  | none => AcqState.converted

/-- A state like `initWorld script` in its bus responses only: other coefficients in
Cal, other bytes in the buffers, an earlier trace, another nil-Close behaviour. -/
def dirtyWorld (script : List Resp) : World :=
  { script := script, trace := [Ev.sleep 1],
    Cal := ⟨1, -2, 3, 4, -5, 6, -7, 8, -9, 10, -11, 12⟩,
    b1 := [0xFF], b3 := [0xAA, 0xBB, 0xCC], b24 := List.replicate 24 0xFF,
    nilClosePanics := false }

/-- The package-level state at program start: zeroed `Cal` and buffers, empty trace. -/
def initWorld (script : List Resp) : World :=
  { script := script, trace := [], Cal := ⟨0, 0, 0, 0, 0, 0, 0, 0, 0, 0, 0, 0⟩,
    b1 := [0], b3 := [0, 0, 0], b24 := List.replicate 24 0, nilClosePanics := true }

/-- Calibration block holding the coefficients of the datasheet's worked example. -/
def datasheetBlock : List Nat :=
  [0x70, 0x6B, 0x43, 0x67, 0x18, 0xFC, 0x7D, 0x8E, 0x43, 0xD6, 0xD0, 0x0B,
   0x27, 0x0B, 0x8C, 0x00, 0xF9, 0xFF, 0x8C, 0x3C, 0xF8, 0xC6, 0x70, 0x17]

/-- Bus responses of one `ReadPressurePa` call on the datasheet's worked example:
the sensor is idle at the first status read, `adc_T = 519888`, `adc_P = 415148`. -/
def datasheetScript : List Resp :=
  [Resp.ok [], Resp.ok [], Resp.ok [0x00], Resp.ok [0x7E, 0xED, 0x00],
   Resp.ok [], Resp.ok [], Resp.ok [0x00], Resp.ok [0x65, 0x5A, 0xC0],
   Resp.ok [], Resp.ok datasheetBlock]

/-- Bus responses of two `ReadPressurePa` calls on the datasheet's worked example;
in the second call every operation succeeds except the read of the calibration block,
which fails with error 5. -/
def calibFailScript : List Resp :=
  datasheetScript ++
  [Resp.ok [], Resp.ok [], Resp.ok [0x00], Resp.ok [0x7E, 0xED, 0x00],
   Resp.ok [], Resp.ok [], Resp.ok [0x00], Resp.ok [0x65, 0x5A, 0xC0],
   Resp.ok [], Resp.fail 5]

/-! ## Theorems -/

/-- C1: with the datasheet's temperature coefficients (Dig_T1 = 27504, Dig_T2 = 26435,
Dig_T3 = -1000, any pressure coefficients) and adc_T = 519888, the temperature stage
in int32 arithmetic gives t_fine = 128422 and T = 2508. -/
theorem C1_datasheet_temperature (cal : BMP280COEFF) :
    tFine { cal with Dig_T1 := 27504, Dig_T2 := 26435, Dig_T3 := -1000 } 519888 = 128422 ∧
    tempT { cal with Dig_T1 := 27504, Dig_T2 := 26435, Dig_T3 := -1000 } 519888 = 2508 := by
  constructor <;> simp only [tempT, tFine, tempVar1, tempVar2] <;> decide

/-- C2 (as stated, refuted): on the datasheet's worked example the arithmetic of
ReadPressurePa does not produce 100653. -/
theorem C2_not_100653 :
    ¬ ((pressureCalc datasheetCal 519888 415148).value = some 100653) := by decide

/-- C2 (amended): on the datasheet's worked example (coefficients `datasheetCal`,
adc_T = 519888, adc_P = 415148) the 32-bit arithmetic of ReadPressurePa yields
exactly 100656 after one division by 36471, and a whole ReadPressurePa call whose bus
delivers these raw values and coefficients returns 100656 with a nil error. -/
theorem C2_datasheet_pressure :
    pressureCalc datasheetCal 519888 415148 = { value := some 100656, divisors := [36471] } ∧
    decodeCoeff datasheetBlock = datasheetCal ∧
    (ReadPressurePa "/dev/i2c-1" 0x76 "STANDARD" (initWorld datasheetScript)).value
      = some (100656, none) := by
  refine ⟨?_, ?_, ?_⟩ <;> decide

/-! ### Range lemmas for the machine integers -/

theorem wrap32_range (x : Int) : -2147483648 ≤ wrap32 x ∧ wrap32 x < 2147483648 := by
  unfold wrap32; omega

theorem sar32_15_range (x : Int) (h : -2147483648 ≤ x ∧ x < 2147483648) :
    -65536 ≤ sar32 x 15 ∧ sar32 x 15 < 65536 := by
  unfold sar32
  have e : (2 : Int) ^ 15 = 32768 := by norm_num
  rw [e]; omega

theorem toU32_ne_zero (x : Int) (h : -2147483648 ≤ x ∧ x < 2147483648) (hx : x ≠ 0) :
    toU32 x ≠ 0 := by
  unfold toU32; omega

theorem presVar1_range (cal : BMP280COEFF) (t : Int) :
    -2147483648 ≤ presVar1 cal t ∧ presVar1 cal t < 2147483648 := by
  have h := sar32_15_range _ (wrap32_range
    ((add32 32768 (sar32 (add32 (sar32 (mul32 cal.Dig_P3
      (sar32 (mul32 (sar32 (presVar1a t) 2) (sar32 (presVar1a t) 2)) 13)) 3)
      (sar32 (mul32 cal.Dig_P2 (presVar1a t)) 1)) 18)) * (cal.Dig_P1 : Int)))
  have e : presVar1 cal t = sar32 (wrap32
    ((add32 32768 (sar32 (add32 (sar32 (mul32 cal.Dig_P3
      (sar32 (mul32 (sar32 (presVar1a t) 2) (sar32 (presVar1a t) 2)) 13)) 3)
      (sar32 (mul32 cal.Dig_P2 (presVar1a t)) 1)) 18)) * (cal.Dig_P1 : Int))) 15 := rfl
  rw [e]
  omega

/-- C3: for all coefficients and raw values, if the first-stage denominator var1 of
line 248 is 0 the arithmetic of ReadPressurePa returns pressure 0 (with the nil error)
having executed no division; every division executed has a non-zero divisor, and the
arithmetic never panics. -/
theorem C3_zero_denominator (cal : BMP280COEFF) (adc_T adc_P : Int) :
    (presVar1 cal (tFine cal adc_T) = 0 →
      pressureCalc cal adc_T adc_P = { value := some 0, divisors := [] }) ∧
    (∀ d ∈ (pressureCalc cal adc_T adc_P).divisors,
      d = toU32 (presVar1 cal (tFine cal adc_T)) ∧ d ≠ 0) ∧
    (pressureCalc cal adc_T adc_P).value ≠ none := by
  by_cases h : presVar1 cal (tFine cal adc_T) = 0
  · simp [pressureCalc, h]
  · have hd := toU32_ne_zero _ (presVar1_range cal (tFine cal adc_T)) h
    refine ⟨fun h0 => absurd h0 h, ?_, ?_⟩
    · intro d hmem
      simp only [pressureCalc, h, if_false, List.mem_singleton] at hmem
      exact ⟨hmem, hmem ▸ hd⟩
    · simp only [pressureCalc, h, if_false, udiv32, hd]
      split <;> simp

/-- C3 at coefficients read from an all-zero calibration block: var1 is 0, the result
is pressure 0 and no division is executed. -/
theorem C3_zero_denominator_witness :
    presVar1 (decodeCoeff (List.replicate 24 0)) (tFine (decodeCoeff (List.replicate 24 0)) 519888) = 0 ∧
    pressureCalc (decodeCoeff (List.replicate 24 0)) 519888 415148
      = { value := some 0, divisors := [] } :=
  ⟨by decide, (C3_zero_denominator (decodeCoeff (List.replicate 24 0)) 519888 415148).1 (by decide)⟩

/-- C6: getOversamplingRate maps the five accuracy names to 1..5, every other string
(such as "unknown" and the empty string) to 1, and its result is always in [1, 5]. -/
theorem C6_oversampling_rate :
    getOversamplingRate "ULTRA_LOW" = 1 ∧ getOversamplingRate "LOW" = 2 ∧
    getOversamplingRate "STANDARD" = 3 ∧ getOversamplingRate "HIGH" = 4 ∧
    getOversamplingRate "ULTRA_HIGH" = 5 ∧
    getOversamplingRate "unknown" = 1 ∧ getOversamplingRate "" = 1 ∧
    (∀ s : String, s ≠ "ULTRA_LOW" → s ≠ "LOW" → s ≠ "STANDARD" → s ≠ "HIGH" →
      s ≠ "ULTRA_HIGH" → getOversamplingRate s = 1) ∧
    (∀ s : String, 1 ≤ getOversamplingRate s ∧ getOversamplingRate s ≤ 5) := by
  refine ⟨by decide, by decide, by decide, by decide, by decide, by decide, by decide, ?_, ?_⟩
  · intro s h1 h2 h3 h4 h5
    simp [getOversamplingRate, h1, h2, h3, h4, h5]
  · intro s
    unfold getOversamplingRate
    repeat' split
    all_goals omega

/-- C6 at the unrecognised name "lowest": the fallback value 1. -/
theorem C6_oversampling_rate_witness : getOversamplingRate "lowest" = 1 :=
  C6_oversampling_rate.2.2.2.2.2.2.2.1 "lowest" (by decide) (by decide) (by decide)
    (by decide) (by decide)

/-! ### Decoding of the raw 20-bit value -/

set_option maxRecDepth 100000 in
theorem and_F0_shr (b : Nat) (h : b < 256) : (b &&& 0xF0) / 16 = b / 16 := by
  revert b; decide

theorem raw_or_eq_add (b0 b1 b2 : Nat) (h1 : b1 < 256) (h2 : b2 < 256) :
    (b0 <<< 12 ||| b1 <<< 4 ||| b2 >>> 4) = b0 * 4096 + b1 * 16 + b2 / 16 := by
  have h3 : b2 / 16 < 2 ^ 4 := by norm_num; omega
  have h4 : 2 ^ 4 * b1 + b2 / 16 < 2 ^ 12 := by norm_num; omega
  rw [Nat.or_assoc, Nat.shiftLeft_eq, Nat.shiftLeft_eq, Nat.shiftRight_eq_div_pow,
    Nat.mul_comm b1, Nat.mul_comm b0, ← Nat.mul_add_lt_is_or h3, ← Nat.mul_add_lt_is_or h4]
  norm_num; omega

theorem decodeRaw_bytes (b0 b1 b2 : Nat) (h0 : b0 < 256) (h1 : b1 < 256) (h2 : b2 < 256) :
    decodeRaw [b0, b1, b2] = ((b0 <<< 12 ||| b1 <<< 4 ||| b2 >>> 4 : Nat) : Int) ∧
    0 ≤ decodeRaw [b0, b1, b2] ∧ decodeRaw [b0, b1, b2] ≤ 0xFFFFF := by
  rw [raw_or_eq_add b0 b1 b2 h1 h2]
  have e : decodeRaw [b0, b1, b2] = ((b0 * 4096 + b1 * 16 + b2 / 16 : Nat) : Int) := by
    have h3 := and_F0_shr b2 h2
    simp only [decodeRaw, add32, shl32, sar32, wrap32, List.getD_cons_zero, List.getD_cons_succ]
    push_cast
    omega
  rw [e]
  refine ⟨rfl, ?_, ?_⟩ <;> omega

theorem delivered_three (data : List Nat) :
    delivered 3 data = [data.getD 0 0 % 256, data.getD 1 0 % 256, data.getD 2 0 % 256] := rfl

theorem delivered_one (data : List Nat) : delivered 1 data = [data.getD 0 0 % 256] := rfl

/-! ### The bus primitives on a known next response -/

theorem i2cOpen_ok (d : String) (a : Int) (w : World) (x : List Nat) (rest : List Resp)
    (h : w.script = Resp.ok x :: rest) :
    i2cOpen d a w = (none, { w with script := rest }.emit (Ev.open d a true)) := by
  simp [i2cOpen, nextResp, h]

theorem i2cWriteReg_ok (reg : Nat) (bs : List Nat) (w : World) (x : List Nat)
    (rest : List Resp) (h : w.script = Resp.ok x :: rest) :
    i2cWriteReg reg bs w = (none, { w with script := rest }.emit (Ev.write reg bs true)) := by
  simp [i2cWriteReg, nextResp, h]

theorem i2cReadReg_ok (reg len : Nat) (buf : List Nat) (w : World) (x : List Nat)
    (rest : List Resp) (h : w.script = Resp.ok x :: rest) :
    i2cReadReg reg len buf w = (none, delivered len x,
      { w with script := rest }.emit (Ev.read reg len (some (delivered len x)))) := by
  simp [i2cReadReg, nextResp, h]

/-- Every call of `Open` adds exactly one event and reports the error of the response. -/
theorem i2cOpen_cases (d : String) (a : Int) (w : World) :
    (∃ x rest, w.script = Resp.ok x :: rest ∧
      i2cOpen d a w = (none, { w with script := rest }.emit (Ev.open d a true))) ∨
    ((∀ x rest, w.script ≠ Resp.ok x :: rest) ∧
      ∃ e rest, i2cOpen d a w = (some e, { w with script := rest }.emit (Ev.open d a false))) := by
  rcases hs : w.script with _ | ⟨r, rest⟩
  · right; exact ⟨by simp, 0, [], by simp [i2cOpen, nextResp, hs]⟩
  · cases r with
    | ok x => left; exact ⟨x, rest, rfl, by simp [i2cOpen, nextResp, hs]⟩
    | fail e => right; exact ⟨by simp, e, rest, by simp [i2cOpen, nextResp, hs]⟩

theorem i2cWriteReg_cases (reg : Nat) (bs : List Nat) (w : World) :
    (∃ x rest, w.script = Resp.ok x :: rest ∧
      i2cWriteReg reg bs w = (none, { w with script := rest }.emit (Ev.write reg bs true))) ∨
    (∃ e rest,
      i2cWriteReg reg bs w = (some e, { w with script := rest }.emit (Ev.write reg bs false))) := by
  rcases hs : w.script with _ | ⟨r, rest⟩
  · right; exact ⟨0, [], by simp [i2cWriteReg, nextResp, hs]⟩
  · cases r with
    | ok x => left; exact ⟨x, rest, rfl, by simp [i2cWriteReg, nextResp, hs]⟩
    | fail e => right; exact ⟨e, rest, by simp [i2cWriteReg, nextResp, hs]⟩

theorem i2cReadReg_cases (reg len : Nat) (buf : List Nat) (w : World) :
    (∃ x rest, w.script = Resp.ok x :: rest ∧ i2cReadReg reg len buf w = (none, delivered len x,
      { w with script := rest }.emit (Ev.read reg len (some (delivered len x))))) ∨
    (∃ e rest, i2cReadReg reg len buf w = (some e, buf,
      { w with script := rest }.emit (Ev.read reg len none))) := by
  rcases hs : w.script with _ | ⟨r, rest⟩
  · right; exact ⟨0, [], by simp [i2cReadReg, nextResp, hs]⟩
  · cases r with
    | ok x => left; exact ⟨x, rest, rfl, by simp [i2cReadReg, nextResp, hs]⟩
    | fail e => right; exact ⟨e, rest, by simp [i2cReadReg, nextResp, hs]⟩

/-- A nil error from the shared body means the last event is the successful data
read, and the value is the decoding of the three bytes delivered. -/
theorem triggerPollRead_nil (shift reg : Nat) (acc : String) (w : World) (v : Int)
    (h : (triggerPollRead shift reg acc w).1 = (v, none)) :
    ∃ data pre, (triggerPollRead shift reg acc w).2.trace
        = pre ++ [Ev.read reg 3 (some (delivered 3 data))] ∧
      v = decodeRaw (delivered 3 data) := by
  unfold triggerPollRead at h ⊢
  simp only at h ⊢
  split at h
  · simp at h
  · split at h
    · simp at h
    · rename_i w1 _ w2 hp
      rcases i2cReadReg_cases reg 3 w2.b3 w2 with ⟨x, rest, _, hr⟩ | ⟨e, rest, hr⟩
      · simp only [hp, hr] at h ⊢
        simp only [Prod.mk.injEq, and_true] at h
        exact ⟨x, w2.trace, by simp [World.emit], h.symm⟩
      · simp only [hp, hr] at h
        simp at h

theorem deferredClose_true {α : Type} (r : α) (w : World) :
    deferredClose true r w = Outcome.ret r (w.emit Ev.close) := rfl

theorem deferredClose_false_value {α : Type} (r : α) (w : World) (v : α)
    (h : (deferredClose false r w).value = some v) : v = r := by
  unfold deferredClose at h
  by_cases hp : w.nilClosePanics <;> simp [hp, Outcome.value] at h
  exact h.symm

theorem mod_256_lt (n : Nat) : n % 256 < 256 := Nat.mod_lt n (by decide)

/-- Shape of a successful raw read through either entry point. -/
theorem rawRead_nil (shift reg : Nat) (d : String) (a : Int) (acc : String) (w : World)
    (v : Int)
    (h : (match i2cOpen d a w with
          | (some err, w1) => deferredClose false ((0 : Int), some err) w1
          | (none, w1) =>
            match triggerPollRead shift reg acc w1 with
            | (r, w2) => deferredClose true r w2).value = some (v, none)) :
    ∃ b0 b1 b2 pre, b0 < 256 ∧ b1 < 256 ∧ b2 < 256 ∧
      (match i2cOpen d a w with
          | (some err, w1) => deferredClose false ((0 : Int), some err) w1
          | (none, w1) =>
            match triggerPollRead shift reg acc w1 with
            | (r, w2) => deferredClose true r w2).world.trace
        = pre ++ [Ev.read reg 3 (some [b0, b1, b2]), Ev.close] ∧
      v = ((b0 <<< 12 ||| b1 <<< 4 ||| b2 >>> 4 : Nat) : Int) ∧ 0 ≤ v ∧ v ≤ 0xFFFFF := by
  rcases i2cOpen_cases d a w with ⟨x, rest, _, ho⟩ | ⟨_, e, rest, ho⟩
  · simp only [ho, deferredClose_true, Outcome.value, Outcome.world] at h ⊢
    have h1 : (triggerPollRead shift reg acc
        ({ w with script := rest }.emit (Ev.open d a true))).1 = (v, none) := by
      simpa using h
    obtain ⟨data, pre, ht, hv⟩ := triggerPollRead_nil _ _ _ _ _ h1
    have hb := decodeRaw_bytes _ _ _ (mod_256_lt (data.getD 0 0)) (mod_256_lt (data.getD 1 0))
      (mod_256_lt (data.getD 2 0))
    rw [delivered_three] at hv ht
    refine ⟨data.getD 0 0 % 256, data.getD 1 0 % 256, data.getD 2 0 % 256, pre,
      mod_256_lt _, mod_256_lt _, mod_256_lt _, ?_, ?_, ?_, ?_⟩
    · show (triggerPollRead shift reg acc _).2.trace ++ [Ev.close] = _
      rw [ht, List.append_assoc]; rfl
    · rw [hv]; exact hb.1
    · rw [hv]; exact hb.2.1
    · rw [hv]; exact hb.2.2
  · simp only [ho] at h
    have := deferredClose_false_value _ _ _ h
    simp at this

/-- C4: whenever ReadUncompTemprature (resp. ReadUncompPressure) returns a value v with
a nil error, its last bus operations are the successful 3-byte read of the data register
0xFA (resp. 0xF7), delivering bytes b0, b1, b2, followed by Close, and
v = (b0<<12)|(b1<<4)|(b2>>4), which lies in [0, 0xFFFFF]. -/
theorem C4_raw_value (d : String) (a : Int) (accuracy : String) (w : World) (v : Int) :
    ((ReadUncompTemprature d a accuracy w).value = some (v, none) →
      ∃ b0 b1 b2 pre, b0 < 256 ∧ b1 < 256 ∧ b2 < 256 ∧
        (ReadUncompTemprature d a accuracy w).world.trace
          = pre ++ [Ev.read BMP280_TEMP_3BYTES 3 (some [b0, b1, b2]), Ev.close] ∧
        v = ((b0 <<< 12 ||| b1 <<< 4 ||| b2 >>> 4 : Nat) : Int) ∧ 0 ≤ v ∧ v ≤ 0xFFFFF) ∧
    ((ReadUncompPressure d a accuracy w).value = some (v, none) →
      ∃ b0 b1 b2 pre, b0 < 256 ∧ b1 < 256 ∧ b2 < 256 ∧
        (ReadUncompPressure d a accuracy w).world.trace
          = pre ++ [Ev.read BMP280_PRES_3BYTES 3 (some [b0, b1, b2]), Ev.close] ∧
        v = ((b0 <<< 12 ||| b1 <<< 4 ||| b2 >>> 4 : Nat) : Int) ∧ 0 ≤ v ∧ v ≤ 0xFFFFF) :=
  ⟨rawRead_nil 5 BMP280_TEMP_3BYTES d a accuracy w v,
   rawRead_nil 2 BMP280_PRES_3BYTES d a accuracy w v⟩

/-- C4 on a run delivering the bytes 0x7E, 0xED, 0x00: the value is 519888. -/
theorem C4_raw_value_witness :
    (ReadUncompTemprature "/dev/i2c-1" 0x76 "STANDARD"
      (initWorld [Resp.ok [], Resp.ok [], Resp.ok [0x00], Resp.ok [0x7E, 0xED, 0x00]])).value
      = some (519888, none) ∧
    ∃ b0 b1 b2 pre, b0 < 256 ∧ b1 < 256 ∧ b2 < 256 ∧
      (ReadUncompTemprature "/dev/i2c-1" 0x76 "STANDARD"
        (initWorld [Resp.ok [], Resp.ok [], Resp.ok [0x00], Resp.ok [0x7E, 0xED, 0x00]])).world.trace
        = pre ++ [Ev.read BMP280_TEMP_3BYTES 3 (some [b0, b1, b2]), Ev.close] ∧
      (519888 : Int) = ((b0 <<< 12 ||| b1 <<< 4 ||| b2 >>> 4 : Nat) : Int) ∧
      (0 : Int) ≤ 519888 ∧ (519888 : Int) ≤ 0xFFFFF :=
  ⟨by decide, (C4_raw_value "/dev/i2c-1" 0x76 "STANDARD"
      (initWorld [Resp.ok [], Resp.ok [], Resp.ok [0x00], Resp.ok [0x7E, 0xED, 0x00]])
      519888).1 (by decide)⟩

/-! ### Calibration block -/

theorem or_shl8 (x y : Nat) (hx : x < 256) (hy : y < 256) :
    (x ||| y <<< 8) = x + 256 * y ∧ (x ||| y <<< 8) < 65536 := by
  have e : (x ||| y <<< 8) = x + 256 * y := by
    rw [Nat.or_comm, Nat.shiftLeft_eq, Nat.mul_comm,
      ← Nat.mul_add_lt_is_or (show x < 2 ^ 8 by norm_num; exact hx)]
    norm_num; omega
  exact ⟨e, by omega⟩

theorem delivered_self (b : List Nat) (hb : ∀ y ∈ b, y < 256) : delivered b.length b = b := by
  apply List.ext_getElem
  · simp [delivered]
  · intro i h1 h2
    have hlt : b[i] < 256 := hb _ (List.getElem_mem h2)
    simp [delivered, h2, Nat.mod_eq_of_lt hlt]

theorem getD_lt_256 (b : List Nat) (hb : ∀ y ∈ b, y < 256) (i : Nat) : b.getD i 0 < 256 := by
  by_cases h : i < b.length
  · rw [List.getD_eq_getElem _ _ h]; exact hb _ (List.getElem_mem h)
  · rw [List.getD_eq_default _ _ (by omega)]; decide

theorem le16_bytes (b : List Nat) (hb : ∀ y ∈ b, y < 256) (i : Nat) :
    le16 b i = (b.getD i 0 ||| b.getD (i + 1) 0 <<< 8) ∧ le16 b i < 65536 := by
  have h0 := getD_lt_256 b hb i
  have h1 := getD_lt_256 b hb (i + 1)
  have e : le16 b i = (b.getD i 0 ||| b.getD (i + 1) 0 <<< 8) := by
    simp only [le16, Nat.mod_eq_of_lt h0, Nat.mod_eq_of_lt h1]
  exact ⟨e, e ▸ (or_shl8 _ _ h0 h1).2⟩

theorem toI16_eq (u : Nat) (h : u < 65536) : toI16 u = twosComplement16 u := by
  unfold toI16 wrap16 twosComplement16
  split <;> omega

theorem ReadCoeff_ok (d : String) (a : Int) (w : World) (x b : List Nat) (rest : List Resp)
    (hs : w.script = Resp.ok x :: Resp.ok b :: rest) (hl : b.length = 24)
    (hb : ∀ y ∈ b, y < 256) :
    (ReadCoeff d a w).value = some none ∧ (ReadCoeff d a w).world.b24 = b ∧
    (ReadCoeff d a w).world.Cal = decodeCoeff b := by
  have hd : delivered BMP280_COEF_BYTES b = b := by
    have := delivered_self b hb
    rwa [hl] at this
  have h2 : ({ w with script := Resp.ok b :: rest }.emit (Ev.open d a true)).script
      = Resp.ok b :: rest := rfl
  have hb24 : ({ w with script := Resp.ok b :: rest }.emit (Ev.open d a true)).b24 = w.b24 := rfl
  have hr := i2cReadReg_ok BMP280_COEF_START BMP280_COEF_BYTES w.b24 _ b rest h2
  simp only [ReadCoeff, i2cOpen_ok d a w x _ hs, hb24, hr, hd]
  simp [deferredClose_true, Outcome.value, Outcome.world, World.emit, binaryRead, hl,
    BMP280_COEF_BYTES]

/-- C5: when Open succeeds and the calibration read delivers a 24-byte block b,
ReadCoeff returns nil, leaves b in b24, and the k-th field of Cal (in the order Dig_T1,
Dig_T2, Dig_T3, Dig_P1, ..., Dig_P9) is the little-endian 16-bit value
b[2k] | b[2k+1]<<8, unsigned for Dig_T1 and Dig_P1 (k = 0, 3) and two's-complement
signed for the other ten fields. -/
theorem C5_coeff_decode (d : String) (a : Int) (w : World) (x b : List Nat)
    (rest : List Resp) (hs : w.script = Resp.ok x :: Resp.ok b :: rest)
    (hl : b.length = 24) (hb : ∀ y ∈ b, y < 256) :
    (ReadCoeff d a w).value = some none ∧ (ReadCoeff d a w).world.b24 = b ∧
    ∀ k, k < 12 → (coeffFields (ReadCoeff d a w).world.Cal).getD k 0 =
      if k = 0 ∨ k = 3 then ((b.getD (2 * k) 0 ||| b.getD (2 * k + 1) 0 <<< 8 : Nat) : Int)
      else twosComplement16 (b.getD (2 * k) 0 ||| b.getD (2 * k + 1) 0 <<< 8) := by
  obtain ⟨h1, h2, h3⟩ := ReadCoeff_ok d a w x b rest hs hl hb
  refine ⟨h1, h2, ?_⟩
  intro k hk
  rw [h3]
  have hle := le16_bytes b hb
  interval_cases k
  · simpa [coeffFields, decodeCoeff] using congrArg Nat.cast (hle 0).1
  · simpa [coeffFields, decodeCoeff, toI16_eq _ (hle 2).2] using congrArg twosComplement16 (hle 2).1
  · simpa [coeffFields, decodeCoeff, toI16_eq _ (hle 4).2] using congrArg twosComplement16 (hle 4).1
  · simpa [coeffFields, decodeCoeff] using congrArg Nat.cast (hle 6).1
  · simpa [coeffFields, decodeCoeff, toI16_eq _ (hle 8).2] using congrArg twosComplement16 (hle 8).1
  · simpa [coeffFields, decodeCoeff, toI16_eq _ (hle 10).2] using congrArg twosComplement16 (hle 10).1
  · simpa [coeffFields, decodeCoeff, toI16_eq _ (hle 12).2] using congrArg twosComplement16 (hle 12).1
  · simpa [coeffFields, decodeCoeff, toI16_eq _ (hle 14).2] using congrArg twosComplement16 (hle 14).1
  · simpa [coeffFields, decodeCoeff, toI16_eq _ (hle 16).2] using congrArg twosComplement16 (hle 16).1
  · simpa [coeffFields, decodeCoeff, toI16_eq _ (hle 18).2] using congrArg twosComplement16 (hle 18).1
  · simpa [coeffFields, decodeCoeff, toI16_eq _ (hle 20).2] using congrArg twosComplement16 (hle 20).1
  · simpa [coeffFields, decodeCoeff, toI16_eq _ (hle 22).2] using congrArg twosComplement16 (hle 22).1

/-- C5 on the calibration block of the datasheet's worked example. -/
theorem C5_coeff_decode_witness :
    (ReadCoeff "/dev/i2c-1" 0x76 (initWorld [Resp.ok [], Resp.ok datasheetBlock])).value
      = some none ∧
    (ReadCoeff "/dev/i2c-1" 0x76 (initWorld [Resp.ok [], Resp.ok datasheetBlock])).world.b24
      = datasheetBlock ∧
    ∀ k, k < 12 →
      (coeffFields (ReadCoeff "/dev/i2c-1" 0x76
        (initWorld [Resp.ok [], Resp.ok datasheetBlock])).world.Cal).getD k 0 =
      if k = 0 ∨ k = 3 then
        ((datasheetBlock.getD (2 * k) 0 ||| datasheetBlock.getD (2 * k + 1) 0 <<< 8 : Nat) : Int)
      else twosComplement16
        (datasheetBlock.getD (2 * k) 0 ||| datasheetBlock.getD (2 * k + 1) 0 <<< 8) :=
  C5_coeff_decode "/dev/i2c-1" 0x76 (initWorld [Resp.ok [], Resp.ok datasheetBlock]) []
    datasheetBlock [] rfl rfl (by decide)

/-! ### The poll loop, one iteration at a time -/

theorem pollLoop_fail (n : Nat) (w : World) (e : GoError) (rest : List Resp)
    (h : i2cReadReg BMP280_STATUS_REG 1 w.b1 w = (some e, w.b1,
      { w with script := rest }.emit (Ev.read BMP280_STATUS_REG 1 none))) :
    pollLoop (n + 1) w = (some e,
      { w with script := rest, trace := w.trace ++ [Ev.read BMP280_STATUS_REG 1 none] }) := by
  simp only [pollLoop, h, World.emit]

theorem pollLoop_idle (n : Nat) (w : World) (x : List Nat) (rest : List Resp)
    (hs : w.script = Resp.ok x :: rest) (hx : x.getD 0 0 % 256 &&& 0x8 = 0) :
    pollLoop (n + 1) w = (none, afterStatus w x rest) := by
  simp only [pollLoop, i2cReadReg_ok _ _ _ w x rest hs, delivered_one, World.emit, afterStatus]
  generalize x.getD 0 0 = x0 at hx ⊢
  simp [hx]

theorem pollLoop_busy (n : Nat) (w : World) (x : List Nat) (rest : List Resp)
    (hs : w.script = Resp.ok x :: rest) (hx : x.getD 0 0 % 256 &&& 0x8 ≠ 0) :
    pollLoop (n + 1) w = pollLoop n (timeSleep 5 (afterStatus w x rest)) := by
  simp only [pollLoop, i2cReadReg_ok _ _ _ w x rest hs, delivered_one, World.emit, afterStatus]
  generalize x.getD 0 0 = x0 at hx ⊢
  simp [hx, timeSleep, World.emit]

theorem callEvents_append (w0 w1 : World) (evs : List Ev) (h : w1.trace = w0.trace ++ evs) :
    callEvents w0 w1 = evs := by
  simp [callEvents, h]

theorem PollBound.nil (n : Nat) : PollBound [] n := by
  simp [PollBound]

theorem PollBound.mono {evs : List Ev} {n m : Nat} (h : PollBound evs n) (hnm : n ≤ m) :
    PollBound evs m :=
  ⟨le_trans h.1 hnm, le_trans h.2.1 hnm, h.2.2.1, h.2.2.2⟩

/-- An event that is neither a status read nor a sleep does not change the bounds. -/
theorem PollBound.cons_other {evs : List Ev} {n : Nat} (e : Ev) (h : PollBound evs n)
    (h1 : isStatusRead e = false) (h2 : isSleep e = false) (h3 : isBusyRead e = false) :
    PollBound (e :: evs) n := by
  obtain ⟨a, b, c, dd⟩ := h
  refine ⟨?_, ?_, ?_, ?_⟩
  · simpa [List.countP_cons, h1] using a
  · simpa [List.countP_cons, h2] using b
  · simpa [List.countP_cons, h2, h3] using c
  · intro x hx hs
    rcases List.mem_cons.1 hx with rfl | hx
    · rw [h2] at hs; cases hs
    · exact dd x hx hs

theorem PollBound.append_other {evs : List Ev} {n : Nat} (e : Ev) (h : PollBound evs n)
    (h1 : isStatusRead e = false) (h2 : isSleep e = false) (h3 : isBusyRead e = false) :
    PollBound (evs ++ [e]) n := by
  obtain ⟨a, b, c, dd⟩ := h
  refine ⟨?_, ?_, ?_, ?_⟩
  · simpa [List.countP_append, List.countP_cons, h1] using a
  · simpa [List.countP_append, List.countP_cons, h2] using b
  · simpa [List.countP_append, List.countP_cons, h2, h3] using c
  · intro x hx hs
    rcases List.mem_append.1 hx with hx | hx
    · exact dd x hx hs
    · rw [List.mem_singleton] at hx
      rw [hx, h2] at hs; cases hs

/-- Events of the poll loop: the trace grows by `evs`, bounded by the iterations
left; an error return comes with a failed bus operation. -/
theorem pollLoop_events (n : Nat) : ∀ w : World, ∃ evs,
    (pollLoop n w).2.trace = w.trace ++ evs ∧ PollBound evs n ∧
    (∀ e, (pollLoop n w).1 = some e → ∃ ev ∈ evs, isFailedOp ev = true) := by
  induction n with
  | zero =>
    intro w
    exact ⟨[], by simp [pollLoop], PollBound.nil 0, by simp [pollLoop]⟩
  | succ n ih =>
    intro w
    rcases i2cReadReg_cases BMP280_STATUS_REG 1 w.b1 w with ⟨x, rest, hs, _⟩ | ⟨e, rest, hr⟩
    · by_cases hx : x.getD 0 0 % 256 &&& 0x8 = 0
      · rw [pollLoop_idle n w x rest hs hx]
        refine ⟨[Ev.read BMP280_STATUS_REG 1 (some [x.getD 0 0 % 256])], rfl, ?_, by simp⟩
        refine ⟨?_, ?_, ?_, ?_⟩
        · simp [List.countP_cons, isStatusRead]
        · simp [List.countP_cons, isSleep]
        · generalize x.getD 0 0 = x0 at hx
          simp [List.countP_cons, isSleep, isBusyRead, hx]
        · simp [isSleep]
      · rw [pollLoop_busy n w x rest hs hx]
        obtain ⟨evs, ht, hb, hf⟩ := ih (timeSleep 5 (afterStatus w x rest))
        refine ⟨Ev.read BMP280_STATUS_REG 1 (some [x.getD 0 0 % 256]) :: Ev.sleep 5 :: evs,
          ?_, ?_, ?_⟩
        · rw [ht]; simp [timeSleep, World.emit, afterStatus]
        · obtain ⟨a, b, c, dd⟩ := hb
          refine ⟨?_, ?_, ?_, ?_⟩
          · simpa [List.countP_cons, isStatusRead] using a
          · simpa [List.countP_cons, isSleep] using b
          · generalize x.getD 0 0 = x0 at hx
            simpa [List.countP_cons, isSleep, isBusyRead, hx, BMP280_STATUS_REG] using c
          · intro y hy hsl
            rcases List.mem_cons.1 hy with rfl | hy
            · simp [isSleep] at hsl
            · rcases List.mem_cons.1 hy with rfl | hy
              · rfl
              · exact dd y hy hsl
        · intro e he
          obtain ⟨ev, hm, hfl⟩ := hf e he
          exact ⟨ev, List.mem_cons_of_mem _ (List.mem_cons_of_mem _ hm), hfl⟩
    · rw [pollLoop_fail n w e rest hr]
      refine ⟨[Ev.read BMP280_STATUS_REG 1 none], rfl, ?_, ?_⟩
      · refine ⟨?_, ?_, ?_, ?_⟩
        · simp [List.countP_cons, isStatusRead]
        · simp [List.countP_cons, isSleep]
        · simp [List.countP_cons, isSleep, isBusyRead]
        · simp [isSleep]
      · intro e' _
        exact ⟨_, List.mem_singleton.2 rfl, rfl⟩

theorem ReadUncompTemprature_eq (d : String) (a : Int) (acc : String) (w : World) :
    ReadUncompTemprature d a acc w = rawRead 5 BMP280_TEMP_3BYTES d a acc w := rfl

theorem ReadUncompPressure_eq (d : String) (a : Int) (acc : String) (w : World) :
    ReadUncompPressure d a acc w = rawRead 2 BMP280_PRES_3BYTES d a acc w := rfl

/-- Events of the shared body: the trigger write comes first, then polling events
within the bounds, then possibly the data read. -/
theorem triggerPollRead_events (shift reg : Nat) (acc : String) (w : World)
    (hreg : reg ≠ BMP280_STATUS_REG) :
    ∃ ok tail, (triggerPollRead shift reg acc w).2.trace = w.trace ++
        Ev.write BMP280_CNTR_MEAS_REG [1 ||| shl8 (getOversamplingRate acc) shift] ok :: tail ∧
      PollBound tail 30 ∧
      (∀ v e, (triggerPollRead shift reg acc w).1 = (v, some e) →
        ∃ ev ∈ Ev.write BMP280_CNTR_MEAS_REG [1 ||| shl8 (getOversamplingRate acc) shift] ok
          :: tail, isFailedOp ev = true) := by
  have hsr : ∀ res, isStatusRead (Ev.read reg 3 res) = false := by
    intro res; simp [isStatusRead, hreg]
  have hbr : ∀ res, isBusyRead (Ev.read reg 3 res) = false := by
    intro res; cases res <;> simp [isBusyRead, hreg]
  rcases i2cWriteReg_cases BMP280_CNTR_MEAS_REG [1 ||| shl8 (getOversamplingRate acc) shift] w
    with ⟨x, rest, _, hw⟩ | ⟨e, rest, hw⟩
  · obtain ⟨evs, ht, hb, hf⟩ := pollLoop_events 30
      ({ w with script := rest }.emit
        (Ev.write BMP280_CNTR_MEAS_REG [1 ||| shl8 (getOversamplingRate acc) shift] true))
    rcases hp : pollLoop 30 ({ w with script := rest }.emit
        (Ev.write BMP280_CNTR_MEAS_REG [1 ||| shl8 (getOversamplingRate acc) shift] true))
      with ⟨perr, w2⟩
    rw [hp] at ht hf
    simp only at ht hf
    cases perr with
    | some e =>
      refine ⟨true, evs, ?_, hb, ?_⟩
      · simp only [triggerPollRead, hw, hp, ht]
        simp [World.emit]
      · intro v e' _
        obtain ⟨ev, hm, hfl⟩ := hf e rfl
        exact ⟨ev, List.mem_cons_of_mem _ hm, hfl⟩
    | none =>
      rcases i2cReadReg_cases reg 3 w2.b3 w2 with ⟨y, rest2, _, hr⟩ | ⟨e, rest2, hr⟩
      · refine ⟨true, evs ++ [Ev.read reg 3 (some (delivered 3 y))], ?_,
          hb.append_other _ (hsr _) rfl (hbr _), ?_⟩
        · simp only [triggerPollRead, hw, hp, hr]
          simp [World.emit, ht]
        · intro v e' he
          simp only [triggerPollRead, hw, hp, hr] at he
          simp at he
      · refine ⟨true, evs ++ [Ev.read reg 3 none], ?_,
          hb.append_other _ (hsr _) rfl (hbr _), ?_⟩
        · simp only [triggerPollRead, hw, hp, hr]
          simp [World.emit, ht]
        · intro v e' _
          exact ⟨Ev.read reg 3 none, by simp, rfl⟩
  · refine ⟨false, [], ?_, PollBound.nil 30, ?_⟩
    · simp only [triggerPollRead, hw]
      simp [World.emit]
    · intro v e' _
      exact ⟨_, List.mem_singleton.2 rfl, rfl⟩

theorem deferredClose_false_world {α : Type} (r : α) (w : World) :
    (deferredClose false r w).world = w := by
  unfold deferredClose
  by_cases hp : w.nilClosePanics <;> simp [hp, Outcome.world]

/-- Events of one raw read, for either entry point. -/
theorem rawRead_events (shift reg : Nat) (d : String) (a : Int) (acc : String) (w : World)
    (hreg : reg ≠ BMP280_STATUS_REG) :
    ∃ evs, (rawRead shift reg d a acc w).world.trace = w.trace ++ evs ∧ PollBound evs 30 ∧
      ((∃ x rest, w.script = Resp.ok x :: rest) → ∃ ok tail, evs = Ev.open d a true ::
        Ev.write BMP280_CNTR_MEAS_REG [1 ||| shl8 (getOversamplingRate acc) shift] ok :: tail) ∧
      ((∀ x rest, w.script ≠ Resp.ok x :: rest) → evs = [Ev.open d a false]) ∧
      (∀ v e, (rawRead shift reg d a acc w).value = some (v, some e) →
        ∃ ev ∈ evs, isFailedOp ev = true) := by
  rcases i2cOpen_cases d a w with ⟨x, rest, hs, ho⟩ | ⟨hne, e, rest, ho⟩
  · obtain ⟨ok, tail, ht, hb, hf⟩ := triggerPollRead_events shift reg acc
      ({ w with script := rest }.emit (Ev.open d a true)) hreg
    refine ⟨Ev.open d a true :: (Ev.write BMP280_CNTR_MEAS_REG
      [1 ||| shl8 (getOversamplingRate acc) shift] ok :: tail ++ [Ev.close]), ?_, ?_, ?_, ?_, ?_⟩
    · simp only [rawRead, ho, deferredClose_true, Outcome.world]
      show (triggerPollRead shift reg acc _).2.trace ++ [Ev.close] = _
      rw [ht]
      simp [World.emit]
    · exact ((hb.cons_other (Ev.write BMP280_CNTR_MEAS_REG
        [1 ||| shl8 (getOversamplingRate acc) shift] ok) rfl rfl rfl).append_other
        Ev.close rfl rfl rfl).cons_other (Ev.open d a true) rfl rfl rfl
    · intro _
      exact ⟨ok, tail ++ [Ev.close], rfl⟩
    · intro h
      exact absurd hs (h x rest)
    · intro v e hv
      simp only [rawRead, ho, deferredClose_true, Outcome.value, Option.some.injEq] at hv
      obtain ⟨ev, hm, hfl⟩ := hf v e hv
      refine ⟨ev, ?_, hfl⟩
      exact List.mem_cons_of_mem _ (List.mem_append_left _ hm)
  · refine ⟨[Ev.open d a false], ?_, (PollBound.nil 30).cons_other (Ev.open d a false) rfl rfl rfl, ?_, ?_, ?_⟩
    · simp only [rawRead, ho, deferredClose_false_world]
      rfl
    · rintro ⟨x, rest', hs⟩
      exact absurd hs (hne x rest')
    · intro _; rfl
    · intro v e' _
      exact ⟨_, List.mem_singleton.2 rfl, rfl⟩

theorem shl8_osr (acc : String) :
    shl8 (getOversamplingRate acc) 5 = getOversamplingRate acc <<< 5 ∧
    shl8 (getOversamplingRate acc) 2 = getOversamplingRate acc <<< 2 := by
  unfold getOversamplingRate
  repeat' split
  all_goals decide

theorem temp_reg_ne : BMP280_TEMP_3BYTES ≠ BMP280_STATUS_REG := by decide

theorem pres_reg_ne : BMP280_PRES_3BYTES ≠ BMP280_STATUS_REG := by decide

/-- C7: when Open succeeds, the first event after it in ReadUncompTemprature is the
write of the single byte 1 | (osr << 5) to the control register 0xF4, and in
ReadUncompPressure the write of 1 | (osr << 2), with osr = getOversamplingRate(accuracy);
when Open fails the call performs no register operation at all. -/
theorem C7_trigger_write (d : String) (a : Int) (accuracy : String) (w : World) :
    ((∃ x rest, w.script = Resp.ok x :: rest) →
      (∃ ok tail, callEvents w (ReadUncompTemprature d a accuracy w).world =
        Ev.open d a true :: Ev.write BMP280_CNTR_MEAS_REG
          [1 ||| getOversamplingRate accuracy <<< 5] ok :: tail) ∧
      (∃ ok tail, callEvents w (ReadUncompPressure d a accuracy w).world =
        Ev.open d a true :: Ev.write BMP280_CNTR_MEAS_REG
          [1 ||| getOversamplingRate accuracy <<< 2] ok :: tail)) ∧
    ((∀ x rest, w.script ≠ Resp.ok x :: rest) →
      callEvents w (ReadUncompTemprature d a accuracy w).world = [Ev.open d a false] ∧
      callEvents w (ReadUncompPressure d a accuracy w).world = [Ev.open d a false]) := by
  obtain ⟨evsT, htT, _, hokT, hfailT, _⟩ :=
    rawRead_events 5 BMP280_TEMP_3BYTES d a accuracy w temp_reg_ne
  obtain ⟨evsP, htP, _, hokP, hfailP, _⟩ :=
    rawRead_events 2 BMP280_PRES_3BYTES d a accuracy w pres_reg_ne
  rw [ReadUncompTemprature_eq, ReadUncompPressure_eq,
    callEvents_append _ _ _ htT, callEvents_append _ _ _ htP]
  rw [(shl8_osr accuracy).1] at hokT
  rw [(shl8_osr accuracy).2] at hokP
  exact ⟨fun h => ⟨hokT h, hokP h⟩, fun h => ⟨hfailT h, hfailP h⟩⟩

/-- C7 on a run with accuracy "HIGH" whose Open succeeds. -/
theorem C7_trigger_write_witness :
    (∃ ok tail, callEvents (initWorld [Resp.ok [], Resp.ok [], Resp.ok [0x00]])
        (ReadUncompTemprature "/dev/i2c-1" 0x76 "HIGH"
          (initWorld [Resp.ok [], Resp.ok [], Resp.ok [0x00]])).world =
        Ev.open "/dev/i2c-1" 0x76 true :: Ev.write BMP280_CNTR_MEAS_REG
          [1 ||| getOversamplingRate "HIGH" <<< 5] ok :: tail) ∧
    (∃ ok tail, callEvents (initWorld [Resp.ok [], Resp.ok [], Resp.ok [0x00]])
        (ReadUncompPressure "/dev/i2c-1" 0x76 "HIGH"
          (initWorld [Resp.ok [], Resp.ok [], Resp.ok [0x00]])).world =
        Ev.open "/dev/i2c-1" 0x76 true :: Ev.write BMP280_CNTR_MEAS_REG
          [1 ||| getOversamplingRate "HIGH" <<< 2] ok :: tail) :=
  (C7_trigger_write "/dev/i2c-1" 0x76 "HIGH"
    (initWorld [Resp.ok [], Resp.ok [], Resp.ok [0x00]])).1 ⟨[], _, rfl⟩

/-- C9: for every bus behaviour, one call of ReadUncompTemprature or ReadUncompPressure
performs at most 30 status reads and at most 30 sleeps, each sleep lasts 5 ms, and the
number of sleeps equals the number of status reads that returned with bit 3 set. -/
theorem C9_poll_bounds (d : String) (a : Int) (accuracy : String) (w : World) :
    ((callEvents w (ReadUncompTemprature d a accuracy w).world).countP isStatusRead ≤ 30 ∧
     (callEvents w (ReadUncompTemprature d a accuracy w).world).countP isSleep ≤ 30 ∧
     (callEvents w (ReadUncompTemprature d a accuracy w).world).countP isSleep =
       (callEvents w (ReadUncompTemprature d a accuracy w).world).countP isBusyRead ∧
     ∀ e ∈ callEvents w (ReadUncompTemprature d a accuracy w).world,
       isSleep e = true → e = Ev.sleep 5) ∧
    ((callEvents w (ReadUncompPressure d a accuracy w).world).countP isStatusRead ≤ 30 ∧
     (callEvents w (ReadUncompPressure d a accuracy w).world).countP isSleep ≤ 30 ∧
     (callEvents w (ReadUncompPressure d a accuracy w).world).countP isSleep =
       (callEvents w (ReadUncompPressure d a accuracy w).world).countP isBusyRead ∧
     ∀ e ∈ callEvents w (ReadUncompPressure d a accuracy w).world,
       isSleep e = true → e = Ev.sleep 5) := by
  obtain ⟨evsT, htT, hbT, _⟩ := rawRead_events 5 BMP280_TEMP_3BYTES d a accuracy w temp_reg_ne
  obtain ⟨evsP, htP, hbP, _⟩ := rawRead_events 2 BMP280_PRES_3BYTES d a accuracy w pres_reg_ne
  rw [ReadUncompTemprature_eq, ReadUncompPressure_eq,
    callEvents_append _ _ _ htT, callEvents_append _ _ _ htP]
  exact ⟨hbT, hbP⟩

/-- One raw read whose first status byte has bit 3 clear. -/
theorem rawRead_idle (shift reg : Nat) (d : String) (a : Int) (acc : String) (w : World)
    (x y s : List Nat) (rest : List Resp)
    (hs : w.script = Resp.ok x :: Resp.ok y :: Resp.ok s :: rest)
    (hi : s.getD 0 0 % 256 &&& 0x8 = 0) :
    ∃ res, callEvents w (rawRead shift reg d a acc w).world =
      [Ev.open d a true,
       Ev.write BMP280_CNTR_MEAS_REG [1 ||| shl8 (getOversamplingRate acc) shift] true,
       Ev.read BMP280_STATUS_REG 1 (some [s.getD 0 0 % 256]),
       Ev.read reg 3 res, Ev.close] := by
  have ho := i2cOpen_ok d a w x _ hs
  have hw := i2cWriteReg_ok BMP280_CNTR_MEAS_REG
    [1 ||| shl8 (getOversamplingRate acc) shift]
    ({ w with script := Resp.ok y :: Resp.ok s :: rest }.emit (Ev.open d a true)) y
    (Resp.ok s :: rest) rfl
  have hp : pollLoop 30 _ = _ := pollLoop_idle 29
    ({ ({ w with script := Resp.ok y :: Resp.ok s :: rest }.emit (Ev.open d a true)) with
        script := Resp.ok s :: rest }.emit
      (Ev.write BMP280_CNTR_MEAS_REG [1 ||| shl8 (getOversamplingRate acc) shift] true))
    s rest rfl hi
  rcases i2cReadReg_cases reg 3 (afterStatus
    ({ ({ w with script := Resp.ok y :: Resp.ok s :: rest }.emit (Ev.open d a true)) with
        script := Resp.ok s :: rest }.emit
      (Ev.write BMP280_CNTR_MEAS_REG [1 ||| shl8 (getOversamplingRate acc) shift] true))
    s rest).b3 (afterStatus
    ({ ({ w with script := Resp.ok y :: Resp.ok s :: rest }.emit (Ev.open d a true)) with
        script := Resp.ok s :: rest }.emit
      (Ev.write BMP280_CNTR_MEAS_REG [1 ||| shl8 (getOversamplingRate acc) shift] true))
    s rest) with ⟨z, rest2, _, hr⟩ | ⟨e, rest2, hr⟩
  · refine ⟨some (delivered 3 z), callEvents_append _ _ _ ?_⟩
    simp only [rawRead, ho, triggerPollRead, hw, hp, hr, deferredClose_true, Outcome.world]
    simp [World.emit, afterStatus]
  · refine ⟨none, callEvents_append _ _ _ ?_⟩
    simp only [rawRead, ho, triggerPollRead, hw, hp, hr, deferredClose_true, Outcome.world]
    simp [World.emit, afterStatus]

/-- C8: if Open and the trigger write succeed and the first status byte read has bit 3
clear, the call performs exactly one status read and no sleep, and its next bus
operation is the 3-byte read of the data register (0xFA for temperature, 0xF7 for
pressure), followed by Close. -/
theorem C8_idle_first_read (d : String) (a : Int) (accuracy : String) (w : World)
    (x y s : List Nat) (rest : List Resp)
    (hs : w.script = Resp.ok x :: Resp.ok y :: Resp.ok s :: rest)
    (hi : s.getD 0 0 % 256 &&& 0x8 = 0) :
    (∃ res, callEvents w (ReadUncompTemprature d a accuracy w).world =
      [Ev.open d a true,
       Ev.write BMP280_CNTR_MEAS_REG [1 ||| getOversamplingRate accuracy <<< 5] true,
       Ev.read BMP280_STATUS_REG 1 (some [s.getD 0 0 % 256]),
       Ev.read BMP280_TEMP_3BYTES 3 res, Ev.close]) ∧
    (∃ res, callEvents w (ReadUncompPressure d a accuracy w).world =
      [Ev.open d a true,
       Ev.write BMP280_CNTR_MEAS_REG [1 ||| getOversamplingRate accuracy <<< 2] true,
       Ev.read BMP280_STATUS_REG 1 (some [s.getD 0 0 % 256]),
       Ev.read BMP280_PRES_3BYTES 3 res, Ev.close]) := by
  have hT := rawRead_idle 5 BMP280_TEMP_3BYTES d a accuracy w x y s rest hs hi
  have hP := rawRead_idle 2 BMP280_PRES_3BYTES d a accuracy w x y s rest hs hi
  rw [(shl8_osr accuracy).1] at hT
  rw [(shl8_osr accuracy).2] at hP
  exact ⟨hT, hP⟩

/-- C8 on a run whose first status byte is 0x04 (bit 3 clear). -/
theorem C8_idle_first_read_witness :
    (∃ res, callEvents (initWorld [Resp.ok [], Resp.ok [], Resp.ok [0x04], Resp.ok [1, 2, 3]])
      (ReadUncompTemprature "/dev/i2c-1" 0x76 "LOW"
        (initWorld [Resp.ok [], Resp.ok [], Resp.ok [0x04], Resp.ok [1, 2, 3]])).world =
      [Ev.open "/dev/i2c-1" 0x76 true,
       Ev.write BMP280_CNTR_MEAS_REG [1 ||| getOversamplingRate "LOW" <<< 5] true,
       Ev.read BMP280_STATUS_REG 1 (some [[0x04].getD 0 0 % 256]),
       Ev.read BMP280_TEMP_3BYTES 3 res, Ev.close]) ∧
    (∃ res, callEvents (initWorld [Resp.ok [], Resp.ok [], Resp.ok [0x04], Resp.ok [1, 2, 3]])
      (ReadUncompPressure "/dev/i2c-1" 0x76 "LOW"
        (initWorld [Resp.ok [], Resp.ok [], Resp.ok [0x04], Resp.ok [1, 2, 3]])).world =
      [Ev.open "/dev/i2c-1" 0x76 true,
       Ev.write BMP280_CNTR_MEAS_REG [1 ||| getOversamplingRate "LOW" <<< 2] true,
       Ev.read BMP280_STATUS_REG 1 (some [[0x04].getD 0 0 % 256]),
       Ev.read BMP280_PRES_3BYTES 3 res, Ev.close]) :=
  C8_idle_first_read "/dev/i2c-1" 0x76 "LOW"
    (initWorld [Resp.ok [], Resp.ok [], Resp.ok [0x04], Resp.ok [1, 2, 3]])
    [] [] [0x04] [Resp.ok [1, 2, 3]] rfl (by decide)

/-- The poll loop on as many busy status bytes as it has iterations: it runs out
without an error, having consumed exactly these responses. -/
theorem pollLoop_all_busy (statuses : List (List Nat)) : ∀ (w : World) (rest : List Resp),
    w.script = statuses.map Resp.ok ++ rest →
    (∀ s ∈ statuses, s.getD 0 0 % 256 &&& 0x8 ≠ 0) →
    (pollLoop statuses.length w).1 = none ∧ (pollLoop statuses.length w).2.script = rest ∧
    ∃ evs, (pollLoop statuses.length w).2.trace = w.trace ++ evs ∧
      evs.countP isStatusRead = statuses.length ∧ evs.countP isSleep = statuses.length := by
  induction statuses with
  | nil =>
    intro w rest hs _
    exact ⟨rfl, by simpa [pollLoop] using hs, [], by simp [pollLoop], rfl, rfl⟩
  | cons s ss ih =>
    intro w rest hs hb
    have hs1 : w.script = Resp.ok s :: (ss.map Resp.ok ++ rest) := by simpa using hs
    have hbusy := hb s (List.mem_cons_self _ _)
    have hstep : pollLoop (s :: ss).length w = pollLoop ss.length
        (timeSleep 5 (afterStatus w s (ss.map Resp.ok ++ rest))) :=
      pollLoop_busy ss.length w s _ hs1 hbusy
    obtain ⟨h1, h2, evs, h3, h4, h5⟩ := ih (timeSleep 5 (afterStatus w s (ss.map Resp.ok ++ rest)))
      rest rfl (fun t ht => hb t (List.mem_cons_of_mem _ ht))
    rw [hstep]
    refine ⟨h1, h2, Ev.read BMP280_STATUS_REG 1 (some [s.getD 0 0 % 256]) :: Ev.sleep 5 :: evs,
      ?_, ?_, ?_⟩
    · rw [h3]; simp [timeSleep, World.emit, afterStatus]
    · simp [List.countP_cons, isStatusRead, h4]
    · simp [List.countP_cons, isSleep, h5]

/-- One raw read on a sensor that stays busy through all 30 polls. -/
theorem rawRead_busy (shift reg : Nat) (d : String) (a : Int) (acc : String) (w : World)
    (x y : List Nat) (statuses : List (List Nat)) (b0 b1 b2 : Nat) (rest : List Resp)
    (hreg : reg ≠ BMP280_STATUS_REG)
    (hs : w.script = Resp.ok x :: Resp.ok y ::
      (statuses.map Resp.ok ++ Resp.ok [b0, b1, b2] :: rest))
    (hl : statuses.length = 30) (hb : ∀ s ∈ statuses, s.getD 0 0 % 256 &&& 0x8 ≠ 0)
    (h0 : b0 < 256) (h1 : b1 < 256) (h2 : b2 < 256) :
    (rawRead shift reg d a acc w).value
      = some (((b0 <<< 12 ||| b1 <<< 4 ||| b2 >>> 4 : Nat) : Int), none) ∧
    (callEvents w (rawRead shift reg d a acc w).world).countP isStatusRead = 30 ∧
    (callEvents w (rawRead shift reg d a acc w).world).countP isSleep = 30 ∧
    ∃ pre, callEvents w (rawRead shift reg d a acc w).world
      = pre ++ [Ev.read reg 3 (some [b0, b1, b2]), Ev.close] := by
  have ho := i2cOpen_ok d a w x _ hs
  have hw := i2cWriteReg_ok BMP280_CNTR_MEAS_REG
    [1 ||| shl8 (getOversamplingRate acc) shift]
    ({ w with script := Resp.ok y :: (statuses.map Resp.ok ++ Resp.ok [b0, b1, b2] :: rest) }.emit
      (Ev.open d a true)) y
    (statuses.map Resp.ok ++ Resp.ok [b0, b1, b2] :: rest) rfl
  obtain ⟨hp1, hp2, evs, hp3, hp4, hp5⟩ := pollLoop_all_busy statuses
    ({ ({ w with script := Resp.ok y ::
          (statuses.map Resp.ok ++ Resp.ok [b0, b1, b2] :: rest) }.emit (Ev.open d a true)) with
        script := statuses.map Resp.ok ++ Resp.ok [b0, b1, b2] :: rest }.emit
      (Ev.write BMP280_CNTR_MEAS_REG [1 ||| shl8 (getOversamplingRate acc) shift] true))
    (Resp.ok [b0, b1, b2] :: rest) rfl hb
  rw [hl] at hp1 hp2 hp3 hp4 hp5
  rcases hp : pollLoop 30
    ({ ({ w with script := Resp.ok y ::
          (statuses.map Resp.ok ++ Resp.ok [b0, b1, b2] :: rest) }.emit (Ev.open d a true)) with
        script := statuses.map Resp.ok ++ Resp.ok [b0, b1, b2] :: rest }.emit
      (Ev.write BMP280_CNTR_MEAS_REG [1 ||| shl8 (getOversamplingRate acc) shift] true))
    with ⟨perr, w3⟩
  rw [hp] at hp1 hp2 hp3
  simp only at hp1 hp2 hp3
  subst hp1
  have hr := i2cReadReg_ok reg 3 w3.b3 w3 [b0, b1, b2] rest hp2
  have hd : delivered 3 [b0, b1, b2] = [b0, b1, b2] := by
    simp [delivered_three, Nat.mod_eq_of_lt h0, Nat.mod_eq_of_lt h1, Nat.mod_eq_of_lt h2]
  rw [hd] at hr
  have htr : (rawRead shift reg d a acc w).world.trace = w.trace ++
      (Ev.open d a true :: Ev.write BMP280_CNTR_MEAS_REG
        [1 ||| shl8 (getOversamplingRate acc) shift] true :: evs ++
        [Ev.read reg 3 (some [b0, b1, b2]), Ev.close]) := by
    simp only [rawRead, ho, triggerPollRead, hw, hp, hr, deferredClose_true, Outcome.world]
    simp [World.emit, hp3]
  rw [callEvents_append _ _ _ htr]
  refine ⟨?_, ?_, ?_, ?_⟩
  · simp only [rawRead, ho, triggerPollRead, hw, hp, hr, deferredClose_true, Outcome.value]
    rw [(decodeRaw_bytes b0 b1 b2 h0 h1 h2).1]
  · simp [List.countP_cons, List.countP_append, isStatusRead, hp4, hreg]
  · simp [List.countP_cons, List.countP_append, isSleep, hp5]
  · exact ⟨Ev.open d a true :: Ev.write BMP280_CNTR_MEAS_REG
      [1 ||| shl8 (getOversamplingRate acc) shift] true :: evs, by simp⟩

/-- C10: if Open and the trigger write succeed, all 30 status reads succeed with bit 3
set, and the data read then delivers b0, b1, b2, then ReadUncompTemprature and
ReadUncompPressure perform 30 status reads and 30 sleeps, read the 3-byte data register
and return (b0<<12)|(b1<<4)|(b2>>4) with a nil error.  Moreover, for every bus
behaviour, a non-nil error is returned only when some bus operation of the call
failed: a busy sensor alone never produces an error. -/
theorem C10_persistent_busy (d : String) (a : Int) (accuracy : String) (w : World)
    (x y : List Nat) (statuses : List (List Nat)) (b0 b1 b2 : Nat) (rest : List Resp) :
    (w.script = Resp.ok x :: Resp.ok y ::
        (statuses.map Resp.ok ++ Resp.ok [b0, b1, b2] :: rest) →
      statuses.length = 30 → (∀ s ∈ statuses, s.getD 0 0 % 256 &&& 0x8 ≠ 0) →
      b0 < 256 → b1 < 256 → b2 < 256 →
      ((ReadUncompTemprature d a accuracy w).value
          = some (((b0 <<< 12 ||| b1 <<< 4 ||| b2 >>> 4 : Nat) : Int), none) ∧
        (callEvents w (ReadUncompTemprature d a accuracy w).world).countP isStatusRead = 30 ∧
        (callEvents w (ReadUncompTemprature d a accuracy w).world).countP isSleep = 30 ∧
        ∃ pre, callEvents w (ReadUncompTemprature d a accuracy w).world
          = pre ++ [Ev.read BMP280_TEMP_3BYTES 3 (some [b0, b1, b2]), Ev.close]) ∧
      ((ReadUncompPressure d a accuracy w).value
          = some (((b0 <<< 12 ||| b1 <<< 4 ||| b2 >>> 4 : Nat) : Int), none) ∧
        (callEvents w (ReadUncompPressure d a accuracy w).world).countP isStatusRead = 30 ∧
        (callEvents w (ReadUncompPressure d a accuracy w).world).countP isSleep = 30 ∧
        ∃ pre, callEvents w (ReadUncompPressure d a accuracy w).world
          = pre ++ [Ev.read BMP280_PRES_3BYTES 3 (some [b0, b1, b2]), Ev.close])) ∧
    (∀ v e, (ReadUncompTemprature d a accuracy w).value = some (v, some e) →
      ∃ ev ∈ callEvents w (ReadUncompTemprature d a accuracy w).world, isFailedOp ev = true) ∧
    (∀ v e, (ReadUncompPressure d a accuracy w).value = some (v, some e) →
      ∃ ev ∈ callEvents w (ReadUncompPressure d a accuracy w).world, isFailedOp ev = true) := by
  refine ⟨?_, ?_, ?_⟩
  · intro hs hl hb h0 h1 h2
    exact ⟨rawRead_busy 5 BMP280_TEMP_3BYTES d a accuracy w x y statuses b0 b1 b2 rest
        temp_reg_ne hs hl hb h0 h1 h2,
      rawRead_busy 2 BMP280_PRES_3BYTES d a accuracy w x y statuses b0 b1 b2 rest
        pres_reg_ne hs hl hb h0 h1 h2⟩
  · obtain ⟨evs, ht, _, _, _, hf⟩ :=
      rawRead_events 5 BMP280_TEMP_3BYTES d a accuracy w temp_reg_ne
    rw [ReadUncompTemprature_eq, callEvents_append _ _ _ ht]
    exact hf
  · obtain ⟨evs, ht, _, _, _, hf⟩ :=
      rawRead_events 2 BMP280_PRES_3BYTES d a accuracy w pres_reg_ne
    rw [ReadUncompPressure_eq, callEvents_append _ _ _ ht]
    exact hf

/-- C10 on a run with 30 status bytes 0x08 followed by the data bytes 0x7E, 0xED, 0x00. -/
theorem C10_persistent_busy_witness :
    ((ReadUncompTemprature "/dev/i2c-1" 0x76 "STANDARD" (initWorld busyScript)).value
        = some (((0x7E <<< 12 ||| 0xED <<< 4 ||| 0x00 >>> 4 : Nat) : Int), none) ∧
      (callEvents (initWorld busyScript) (ReadUncompTemprature "/dev/i2c-1" 0x76 "STANDARD"
        (initWorld busyScript)).world).countP isStatusRead = 30 ∧
      (callEvents (initWorld busyScript) (ReadUncompTemprature "/dev/i2c-1" 0x76 "STANDARD"
        (initWorld busyScript)).world).countP isSleep = 30 ∧
      ∃ pre, callEvents (initWorld busyScript) (ReadUncompTemprature "/dev/i2c-1" 0x76
          "STANDARD" (initWorld busyScript)).world
        = pre ++ [Ev.read BMP280_TEMP_3BYTES 3 (some [0x7E, 0xED, 0x00]), Ev.close]) ∧
    ((ReadUncompPressure "/dev/i2c-1" 0x76 "STANDARD" (initWorld busyScript)).value
        = some (((0x7E <<< 12 ||| 0xED <<< 4 ||| 0x00 >>> 4 : Nat) : Int), none) ∧
      (callEvents (initWorld busyScript) (ReadUncompPressure "/dev/i2c-1" 0x76 "STANDARD"
        (initWorld busyScript)).world).countP isStatusRead = 30 ∧
      (callEvents (initWorld busyScript) (ReadUncompPressure "/dev/i2c-1" 0x76 "STANDARD"
        (initWorld busyScript)).world).countP isSleep = 30 ∧
      ∃ pre, callEvents (initWorld busyScript) (ReadUncompPressure "/dev/i2c-1" 0x76
          "STANDARD" (initWorld busyScript)).world
        = pre ++ [Ev.read BMP280_PRES_3BYTES 3 (some [0x7E, 0xED, 0x00]), Ev.close]) :=
  (C10_persistent_busy "/dev/i2c-1" 0x76 "STANDARD" (initWorld busyScript) [] []
    (List.replicate 30 [0x08]) 0x7E 0xED 0x00 []).1 rfl (by decide) (by decide)
    (by decide) (by decide) (by decide)

/-! ### Trigger byte and pressure division -/

theorem trigger_bits (acc : String) :
    ((1 ||| shl8 (getOversamplingRate acc) 5) &&& 3 = 1 ∧
      ((1 ||| shl8 (getOversamplingRate acc) 5) >>> 5) &&& 7 = getOversamplingRate acc ∧
      ((1 ||| shl8 (getOversamplingRate acc) 5) >>> 2) &&& 7 = 0 ∧
      (1 ||| shl8 (getOversamplingRate acc) 5) < 256) ∧
    ((1 ||| shl8 (getOversamplingRate acc) 2) &&& 3 = 1 ∧
      ((1 ||| shl8 (getOversamplingRate acc) 2) >>> 2) &&& 7 = getOversamplingRate acc ∧
      ((1 ||| shl8 (getOversamplingRate acc) 2) >>> 5) &&& 7 = 0 ∧
      (1 ||| shl8 (getOversamplingRate acc) 2) < 256) := by
  unfold getOversamplingRate
  repeat' split
  all_goals decide

/-- C17: for every accuracy string and every bus behaviour whose Open succeeds, the
byte c that ReadUncompTemprature writes to the control register satisfies c & 3 = 1,
(c >> 5) & 7 = getOversamplingRate(accuracy) and (c >> 2) & 7 = 0, and the byte that
ReadUncompPressure writes satisfies c & 3 = 1, (c >> 2) & 7 = getOversamplingRate(accuracy)
and (c >> 5) & 7 = 0: the 8-bit shift loses no bits. -/
theorem C17_trigger_fields (d : String) (a : Int) (accuracy : String) (w : World)
    (hopen : ∃ x rest, w.script = Resp.ok x :: rest) :
    (∃ c ok tail, callEvents w (ReadUncompTemprature d a accuracy w).world =
        Ev.open d a true :: Ev.write BMP280_CNTR_MEAS_REG [c] ok :: tail ∧
      c < 256 ∧ c &&& 3 = 1 ∧ (c >>> 5) &&& 7 = getOversamplingRate accuracy ∧
      (c >>> 2) &&& 7 = 0) ∧
    (∃ c ok tail, callEvents w (ReadUncompPressure d a accuracy w).world =
        Ev.open d a true :: Ev.write BMP280_CNTR_MEAS_REG [c] ok :: tail ∧
      c < 256 ∧ c &&& 3 = 1 ∧ (c >>> 2) &&& 7 = getOversamplingRate accuracy ∧
      (c >>> 5) &&& 7 = 0) := by
  obtain ⟨evsT, htT, _, hokT, _, _⟩ :=
    rawRead_events 5 BMP280_TEMP_3BYTES d a accuracy w temp_reg_ne
  obtain ⟨evsP, htP, _, hokP, _, _⟩ :=
    rawRead_events 2 BMP280_PRES_3BYTES d a accuracy w pres_reg_ne
  rw [ReadUncompTemprature_eq, ReadUncompPressure_eq,
    callEvents_append _ _ _ htT, callEvents_append _ _ _ htP]
  obtain ⟨okT, tailT, hT⟩ := hokT hopen
  obtain ⟨okP, tailP, hP⟩ := hokP hopen
  obtain ⟨⟨t1, t2, t3, t4⟩, ⟨p1, p2, p3, p4⟩⟩ := trigger_bits accuracy
  exact ⟨⟨_, okT, tailT, hT, t4, t1, t2, t3⟩, ⟨_, okP, tailP, hP, p4, p1, p2, p3⟩⟩

/-- C17 on a run with accuracy "ULTRA_HIGH" (osr = 5, the largest rate). -/
theorem C17_trigger_fields_witness :
    (∃ c ok tail, callEvents (initWorld [Resp.ok [], Resp.ok []])
        (ReadUncompTemprature "/dev/i2c-1" 0x76 "ULTRA_HIGH"
          (initWorld [Resp.ok [], Resp.ok []])).world =
        Ev.open "/dev/i2c-1" 0x76 true :: Ev.write BMP280_CNTR_MEAS_REG [c] ok :: tail ∧
      c < 256 ∧ c &&& 3 = 1 ∧ (c >>> 5) &&& 7 = getOversamplingRate "ULTRA_HIGH" ∧
      (c >>> 2) &&& 7 = 0) ∧
    (∃ c ok tail, callEvents (initWorld [Resp.ok [], Resp.ok []])
        (ReadUncompPressure "/dev/i2c-1" 0x76 "ULTRA_HIGH"
          (initWorld [Resp.ok [], Resp.ok []])).world =
        Ev.open "/dev/i2c-1" 0x76 true :: Ev.write BMP280_CNTR_MEAS_REG [c] ok :: tail ∧
      c < 256 ∧ c &&& 3 = 1 ∧ (c >>> 2) &&& 7 = getOversamplingRate "ULTRA_HIGH" ∧
      (c >>> 5) &&& 7 = 0) :=
  C17_trigger_fields "/dev/i2c-1" 0x76 "ULTRA_HIGH" (initWorld [Resp.ok [], Resp.ok []])
    ⟨[], _, rfl⟩

/-- C18: for every uint32 p < 0x80000000 and every non-zero divisor, the branch value
(p << 1) / uint32(var1) of line 255 is floor(2*p / uint32(var1)) in unbounded integers,
the shift not wrapping; so whenever var1 is non-zero and the scaled value p of line 253
is below 0x80000000, ReadPressurePa's arithmetic returns the correction of lines 259-261
applied to floor(2*p / uint32(var1)). -/
theorem C18_shift_no_wrap (cal : BMP280COEFF) (adc_T adc_P : Int) :
    (∀ p dv : Nat, p < 0x80000000 → dv ≠ 0 →
      ushl32 p 1 = 2 * p ∧ udiv32 (ushl32 p 1) dv = some (2 * p / dv)) ∧
    (presVar1 cal (tFine cal adc_T) ≠ 0 →
      presP0 (presVar2 cal (tFine cal adc_T)) adc_P < 0x80000000 →
      (pressureCalc cal adc_T adc_P).value = some (presFinal cal
        (2 * presP0 (presVar2 cal (tFine cal adc_T)) adc_P /
          toU32 (presVar1 cal (tFine cal adc_T))))) := by
  have key : ∀ p dv : Nat, p < 0x80000000 → dv ≠ 0 →
      ushl32 p 1 = 2 * p ∧ udiv32 (ushl32 p 1) dv = some (2 * p / dv) := by
    intro p dv hp hd
    have e : ushl32 p 1 = 2 * p := by
      unfold ushl32
      omega
    exact ⟨e, by simp [udiv32, hd, e]⟩
  refine ⟨key, ?_⟩
  intro h hp
  have hd := toU32_ne_zero _ (presVar1_range cal (tFine cal adc_T)) h
  simp only [pressureCalc, h, if_false, hp, if_true, (key _ _ hp hd).2, Option.map_some']

/-- C18 on the datasheet's worked example: p = 1836703125 < 0x80000000, var1 = 36471. -/
theorem C18_shift_no_wrap_witness :
    ushl32 1836703125 1 = 2 * 1836703125 ∧
    udiv32 (ushl32 1836703125 1) 36471 = some (2 * 1836703125 / 36471) :=
  (C18_shift_no_wrap datasheetCal 519888 415148).1 1836703125 36471 (by decide) (by decide)

/-! ### Identity check and the deferred Close after a failed Open -/

theorem deferredClose_false_panics {α : Type} (r : α) (w : World)
    (hp : w.nilClosePanics = true) : deferredClose false r w = Outcome.panic w := by
  simp [deferredClose, hp]

theorem deferredClose_false_returns {α : Type} (r : α) (w : World)
    (hp : w.nilClosePanics = false) : deferredClose false r w = Outcome.ret r w := by
  simp [deferredClose, hp]

theorem i2cOpen_fail (d : String) (a : Int) (w : World)
    (h : ∀ x rest, w.script ≠ Resp.ok x :: rest) :
    ∃ e rest, i2cOpen d a w = (some e, { w with script := rest }.emit (Ev.open d a false)) := by
  rcases i2cOpen_cases d a w with ⟨x, rest, hs, _⟩ | ⟨_, e, rest, ho⟩
  · exact absurd hs (h x rest)
  · exact ⟨e, rest, ho⟩

/-- C11: when Open succeeds, VerifiySensorID returns normally, and returns true exactly
when the read of register 0xD0 succeeds and delivers the byte 0x58.  When Open fails,
the deferred Close runs on the nil device: if that Close panics (as it does in the i2c
package, which reads a field of the device) VerifiySensorID panics instead of returning
false, having performed only the failed Open; if it did not panic the result would be
false. -/
theorem C11_verify_id (d : String) (a : Int) (w : World) :
    (∀ x rest, w.script = Resp.ok x :: rest →
      (VerifiySensorID d a w).value = some (idMatches rest)) ∧
    ((∀ x rest, w.script ≠ Resp.ok x :: rest) → w.nilClosePanics = true →
      (VerifiySensorID d a w).value = none ∧
      callEvents w (VerifiySensorID d a w).world = [Ev.open d a false]) ∧
    ((∀ x rest, w.script ≠ Resp.ok x :: rest) → w.nilClosePanics = false →
      (VerifiySensorID d a w).value = some false) := by
  refine ⟨?_, ?_, ?_⟩
  · intro x rest hs
    rcases rest with _ | ⟨r, rest2⟩
    · simp [VerifiySensorID, i2cOpen, i2cReadReg, nextResp, hs, World.emit, idMatches,
        deferredClose, Outcome.value]
    · cases r with
      | ok idb =>
        simp only [VerifiySensorID, i2cOpen_ok d a w x _ hs]
        have h2 : ({ w with script := Resp.ok idb :: rest2 }.emit (Ev.open d a true)).script
            = Resp.ok idb :: rest2 := rfl
        simp only [i2cReadReg_ok _ _ _ _ idb rest2 h2, delivered_one, idMatches,
          List.getD_cons_zero]
        generalize idb.getD 0 0 % 256 = g
        by_cases hid : g = 0x58
        · simp [hid, deferredClose_true, Outcome.value]
        · simp [hid, deferredClose_true, Outcome.value]
      | fail e =>
        simp [VerifiySensorID, i2cOpen, i2cReadReg, nextResp, hs, World.emit, idMatches,
          deferredClose, Outcome.value]
  · intro h hp
    obtain ⟨e, rest, ho⟩ := i2cOpen_fail d a w h
    have hp1 : ({ w with script := rest }.emit (Ev.open d a false)).nilClosePanics = true := hp
    simp only [VerifiySensorID, ho, deferredClose_false_panics _ _ hp1, Outcome.value,
      Outcome.world]
    exact ⟨trivial, callEvents_append _ _ _ rfl⟩
  · intro h hp
    obtain ⟨e, rest, ho⟩ := i2cOpen_fail d a w h
    have hp1 : ({ w with script := rest }.emit (Ev.open d a false)).nilClosePanics = false := hp
    simp only [VerifiySensorID, ho, deferredClose_false_returns _ _ hp1, Outcome.value]

/-- C11 at a bus whose Open fails with error 2: VerifiySensorID panics after the failed
Open instead of returning false. -/
theorem C11_verify_id_witness :
    (VerifiySensorID "/dev/i2c-1" 0x76 (initWorld [Resp.fail 2])).value = none ∧
    callEvents (initWorld [Resp.fail 2])
      (VerifiySensorID "/dev/i2c-1" 0x76 (initWorld [Resp.fail 2])).world
      = [Ev.open "/dev/i2c-1" 0x76 false] :=
  (C11_verify_id "/dev/i2c-1" 0x76 (initWorld [Resp.fail 2])).2.1 (by simp [initWorld]) rfl

/-! ### Errors of ReadCoeff and ReadPressurePa -/

/-- C15: when Open succeeds ReadCoeff returns nil whatever the outcome of the 24-byte
read and of the decode, and a non-nil error is returned only after a failed Open.  When
Open fails, the deferred Close runs on the nil device: if that Close panics (as it does
in the i2c package) ReadCoeff panics instead of returning the error; if it did not
panic, the error of Open would be returned. -/
theorem C15_readcoeff_error (d : String) (a : Int) (w : World) :
    (∀ x rest, w.script = Resp.ok x :: rest → (ReadCoeff d a w).value = some none) ∧
    (∀ e, (ReadCoeff d a w).value = some (some e) → ∀ x rest, w.script ≠ Resp.ok x :: rest) ∧
    ((∀ x rest, w.script ≠ Resp.ok x :: rest) → w.nilClosePanics = true →
      (ReadCoeff d a w).value = none) ∧
    ((∀ x rest, w.script ≠ Resp.ok x :: rest) → w.nilClosePanics = false →
      ∃ e, (ReadCoeff d a w).value = some (some e)) := by
  have hok : ∀ x rest, w.script = Resp.ok x :: rest → (ReadCoeff d a w).value = some none := by
    intro x rest hs
    rcases i2cReadReg_cases BMP280_COEF_START BMP280_COEF_BYTES
        ({ w with script := rest }.emit (Ev.open d a true)).b24
        ({ w with script := rest }.emit (Ev.open d a true)) with ⟨y, r2, _, hr⟩ | ⟨e, r2, hr⟩
    · simp only [ReadCoeff, i2cOpen_ok d a w x _ hs, hr, deferredClose_true, Outcome.value]
    · simp only [ReadCoeff, i2cOpen_ok d a w x _ hs, hr, deferredClose_true, Outcome.value]
  refine ⟨hok, ?_, ?_, ?_⟩
  · intro e he x rest hs
    rw [hok x rest hs] at he
    simp at he
  · intro h hp
    obtain ⟨e, rest, ho⟩ := i2cOpen_fail d a w h
    have hp1 : ({ w with script := rest }.emit (Ev.open d a false)).nilClosePanics = true := hp
    simp only [ReadCoeff, ho, deferredClose_false_panics _ _ hp1, Outcome.value]
  · intro h hp
    obtain ⟨e, rest, ho⟩ := i2cOpen_fail d a w h
    have hp1 : ({ w with script := rest }.emit (Ev.open d a false)).nilClosePanics = false := hp
    exact ⟨e, by simp only [ReadCoeff, ho, deferredClose_false_returns _ _ hp1, Outcome.value]⟩

/-- C15 at a bus whose Open fails with error 2: ReadCoeff panics and returns no error. -/
theorem C15_readcoeff_error_witness :
    (ReadCoeff "/dev/i2c-1" 0x76 (initWorld [Resp.fail 2])).value = none :=
  (C15_readcoeff_error "/dev/i2c-1" 0x76 (initWorld [Resp.fail 2])).2.2.1
    (by simp [initWorld]) rfl

/-- C12 (failing inputs): in a second ReadPressurePa call where every bus operation
succeeds except the read of the calibration block, the failed read is among the call's
operations, yet the call returns the pressure 100656 computed from the block left in
b24 by the first call, with a nil error; and on a bus whose Open fails ReadPressurePa
panics in the deferred Close instead of returning an error. -/
theorem C12_errors_not_propagated :
    (ReadPressurePa "/dev/i2c-1" 0x76 "STANDARD" (initWorld calibFailScript)).value
      = some (100656, none) ∧
    Ev.read BMP280_COEF_START BMP280_COEF_BYTES none ∈
      callEvents
        (ReadPressurePa "/dev/i2c-1" 0x76 "STANDARD" (initWorld calibFailScript)).world
        (ReadPressurePa "/dev/i2c-1" 0x76 "STANDARD"
          (ReadPressurePa "/dev/i2c-1" 0x76 "STANDARD" (initWorld calibFailScript)).world).world ∧
    (ReadPressurePa "/dev/i2c-1" 0x76 "STANDARD"
      (ReadPressurePa "/dev/i2c-1" 0x76 "STANDARD" (initWorld calibFailScript)).world).value
      = some (100656, none) ∧
    (ReadPressurePa "/dev/i2c-1" 0x76 "STANDARD" (initWorld [Resp.fail 2])).value = none := by
  refine ⟨?_, ?_, ?_, ?_⟩ <;> decide

/-! ### Open handles -/

theorem handleStep_neutral (s : Option Nat) (e : Ev) (h : isHandleEv e = false) :
    handleStep s e = s := by
  cases s with
  | none => rfl
  | some n =>
    cases e with
    | «open» dv ad ok => cases ok <;> simp_all [handleStep, isHandleEv]
    | close => simp [isHandleEv] at h
    | write r bs ok => cases n <;> rfl
    | read r l res => cases n <;> rfl
    | sleep ms => cases n <;> rfl

theorem foldl_handleStep_neutral (evs : List Ev) (h : ∀ e ∈ evs, isHandleEv e = false) :
    ∀ s, evs.foldl handleStep s = s := by
  induction evs with
  | nil => intro s; rfl
  | cons e es ih =>
    intro s
    rw [List.foldl_cons, handleStep_neutral s e (h e (List.mem_cons_self _ _))]
    exact ih (fun x hx => h x (List.mem_cons_of_mem _ hx)) s

/-- A handle opened, then events that touch no handle, then Close: nothing is left open. -/
theorem handlesAfter_bracket (d : String) (a : Int) (mid : List Ev)
    (h : ∀ e ∈ mid, isHandleEv e = false) :
    handlesAfter (Ev.open d a true :: (mid ++ [Ev.close])) = some 0 := by
  unfold handlesAfter
  rw [List.foldl_cons, List.foldl_append, foldl_handleStep_neutral mid h]
  rfl

theorem handlesAfter_append (xs ys : List Ev) (h : handlesAfter xs = some 0) :
    handlesAfter (xs ++ ys) = handlesAfter ys := by
  unfold handlesAfter at h ⊢
  rw [List.foldl_append, h]

/-- The poll loop performs no Open and no Close. -/
theorem pollLoop_no_handle (n : Nat) : ∀ w : World, ∃ evs,
    (pollLoop n w).2.trace = w.trace ++ evs ∧ ∀ e ∈ evs, isHandleEv e = false := by
  induction n with
  | zero => intro w; exact ⟨[], by simp [pollLoop], by simp⟩
  | succ n ih =>
    intro w
    rcases i2cReadReg_cases BMP280_STATUS_REG 1 w.b1 w with ⟨x, rest, hs, _⟩ | ⟨e, rest, hr⟩
    · by_cases hx : x.getD 0 0 % 256 &&& 0x8 = 0
      · rw [pollLoop_idle n w x rest hs hx]
        exact ⟨[Ev.read BMP280_STATUS_REG 1 (some [x.getD 0 0 % 256])], rfl, by simp [isHandleEv]⟩
      · rw [pollLoop_busy n w x rest hs hx]
        obtain ⟨evs, ht, hn⟩ := ih (timeSleep 5 (afterStatus w x rest))
        refine ⟨Ev.read BMP280_STATUS_REG 1 (some [x.getD 0 0 % 256]) :: Ev.sleep 5 :: evs, ?_, ?_⟩
        · rw [ht]; simp [timeSleep, World.emit, afterStatus]
        · intro y hy
          rcases List.mem_cons.1 hy with rfl | hy
          · rfl
          · rcases List.mem_cons.1 hy with rfl | hy
            · rfl
            · exact hn y hy
    · rw [pollLoop_fail n w e rest hr]
      exact ⟨[Ev.read BMP280_STATUS_REG 1 none], rfl, by simp [isHandleEv]⟩

/-- The shared body performs no Open and no Close. -/
theorem triggerPollRead_no_handle (shift reg : Nat) (acc : String) (w : World) :
    ∃ evs, (triggerPollRead shift reg acc w).2.trace = w.trace ++ evs ∧
      ∀ e ∈ evs, isHandleEv e = false := by
  rcases i2cWriteReg_cases BMP280_CNTR_MEAS_REG [1 ||| shl8 (getOversamplingRate acc) shift] w
    with ⟨x, rest, _, hw⟩ | ⟨e, rest, hw⟩
  · obtain ⟨evs, ht, hn⟩ := pollLoop_no_handle 30
      ({ w with script := rest }.emit
        (Ev.write BMP280_CNTR_MEAS_REG [1 ||| shl8 (getOversamplingRate acc) shift] true))
    rcases hp : pollLoop 30 ({ w with script := rest }.emit
        (Ev.write BMP280_CNTR_MEAS_REG [1 ||| shl8 (getOversamplingRate acc) shift] true))
      with ⟨perr, w2⟩
    rw [hp] at ht
    simp only at ht
    cases perr with
    | some e =>
      refine ⟨Ev.write BMP280_CNTR_MEAS_REG [1 ||| shl8 (getOversamplingRate acc) shift] true
        :: evs, ?_, ?_⟩
      · simp only [triggerPollRead, hw, hp, ht]
        simp [World.emit]
      · intro y hy
        rcases List.mem_cons.1 hy with rfl | hy
        · rfl
        · exact hn y hy
    | none =>
      rcases i2cReadReg_cases reg 3 w2.b3 w2 with ⟨y, rest2, _, hr⟩ | ⟨e, rest2, hr⟩
      · refine ⟨Ev.write BMP280_CNTR_MEAS_REG [1 ||| shl8 (getOversamplingRate acc) shift] true
          :: (evs ++ [Ev.read reg 3 (some (delivered 3 y))]), ?_, ?_⟩
        · simp only [triggerPollRead, hw, hp, hr]
          simp [World.emit, ht]
        · intro z hz
          rcases List.mem_cons.1 hz with rfl | hz
          · rfl
          · rcases List.mem_append.1 hz with hz | hz
            · exact hn z hz
            · rw [List.mem_singleton.1 hz]; rfl
      · refine ⟨Ev.write BMP280_CNTR_MEAS_REG [1 ||| shl8 (getOversamplingRate acc) shift] true
          :: (evs ++ [Ev.read reg 3 none]), ?_, ?_⟩
        · simp only [triggerPollRead, hw, hp, hr]
          simp [World.emit, ht]
        · intro z hz
          rcases List.mem_cons.1 hz with rfl | hz
          · rfl
          · rcases List.mem_append.1 hz with hz | hz
            · exact hn z hz
            · rw [List.mem_singleton.1 hz]; rfl
  · refine ⟨[Ev.write BMP280_CNTR_MEAS_REG [1 ||| shl8 (getOversamplingRate acc) shift] false],
      ?_, by simp [isHandleEv]⟩
    simp only [triggerPollRead, hw]
    simp [World.emit]

/-- One raw read leaves no handle open, whatever the bus does. -/
theorem rawRead_handles (shift reg : Nat) (d : String) (a : Int) (acc : String) (w : World) :
    ∃ evs, (rawRead shift reg d a acc w).world.trace = w.trace ++ evs ∧
      handlesAfter evs = some 0 := by
  rcases i2cOpen_cases d a w with ⟨x, rest, hs, ho⟩ | ⟨_, e, rest, ho⟩
  · obtain ⟨mid, ht, hn⟩ := triggerPollRead_no_handle shift reg acc
      ({ w with script := rest }.emit (Ev.open d a true))
    refine ⟨Ev.open d a true :: (mid ++ [Ev.close]), ?_, handlesAfter_bracket d a mid hn⟩
    simp only [rawRead, ho, deferredClose_true, Outcome.world]
    show (triggerPollRead shift reg acc _).2.trace ++ [Ev.close] = _
    rw [ht]
    simp [World.emit]
  · refine ⟨[Ev.open d a false], ?_, rfl⟩
    simp only [rawRead, ho, deferredClose_false_world]
    rfl

/-- ReadCoeff leaves no handle open, whatever the bus does. -/
theorem ReadCoeff_handles (d : String) (a : Int) (w : World) :
    ∃ evs, (ReadCoeff d a w).world.trace = w.trace ++ evs ∧ handlesAfter evs = some 0 := by
  rcases i2cOpen_cases d a w with ⟨x, rest, hs, ho⟩ | ⟨_, e, rest, ho⟩
  · rcases i2cReadReg_cases BMP280_COEF_START BMP280_COEF_BYTES
        ({ w with script := rest }.emit (Ev.open d a true)).b24
        ({ w with script := rest }.emit (Ev.open d a true)) with ⟨y, r2, _, hr⟩ | ⟨e, r2, hr⟩
    · refine ⟨[Ev.open d a true, Ev.read BMP280_COEF_START BMP280_COEF_BYTES
          (some (delivered BMP280_COEF_BYTES y)), Ev.close], ?_, rfl⟩
      simp only [ReadCoeff, ho, hr, deferredClose_true, Outcome.world]
      simp [World.emit]
    · refine ⟨[Ev.open d a true, Ev.read BMP280_COEF_START BMP280_COEF_BYTES none, Ev.close],
        ?_, rfl⟩
      simp only [ReadCoeff, ho, hr, deferredClose_true, Outcome.world]
      simp [World.emit]
  · refine ⟨[Ev.open d a false], ?_, rfl⟩
    simp only [ReadCoeff, ho, deferredClose_false_world]
    rfl

/-- VerifiySensorID leaves no handle open, whatever the bus does. -/
theorem VerifiySensorID_handles (d : String) (a : Int) (w : World) :
    ∃ evs, (VerifiySensorID d a w).world.trace = w.trace ++ evs ∧
      handlesAfter evs = some 0 := by
  rcases i2cOpen_cases d a w with ⟨x, rest, hs, ho⟩ | ⟨_, e, rest, ho⟩
  · rcases i2cReadReg_cases BMP280_ID_REG 1
        ({ w with script := rest }.emit (Ev.open d a true)).b1
        ({ w with script := rest }.emit (Ev.open d a true)) with ⟨y, r2, _, hr⟩ | ⟨e, r2, hr⟩
    · refine ⟨[Ev.open d a true, Ev.read BMP280_ID_REG 1 (some (delivered 1 y)), Ev.close],
        ?_, rfl⟩
      simp only [VerifiySensorID, ho, hr, deferredClose_true]
      split <;> simp [Outcome.world, World.emit]
    · refine ⟨[Ev.open d a true, Ev.read BMP280_ID_REG 1 none, Ev.close], ?_, rfl⟩
      simp only [VerifiySensorID, ho, hr, deferredClose_true, Outcome.world]
      simp [World.emit]
  · refine ⟨[Ev.open d a false], ?_, rfl⟩
    simp only [VerifiySensorID, ho, deferredClose_false_world]
    rfl

/-- The state in which ReadPressurePa ends is the one its last sub-call ended in. -/
theorem ReadPressurePa_world (d : String) (a : Int) (acc : String) (w : World) :
    (ReadPressurePa d a acc w).world = (ReadUncompTemprature d a acc w).world ∨
    (ReadPressurePa d a acc w).world =
      (ReadUncompPressure d a acc (ReadUncompTemprature d a acc w).world).world ∨
    (ReadPressurePa d a acc w).world =
      (ReadCoeff d a
        (ReadUncompPressure d a acc (ReadUncompTemprature d a acc w).world).world).world := by
  unfold ReadPressurePa
  cases hT : ReadUncompTemprature d a acc w with
  | panic w1 => left; rfl
  | ret r w1 =>
    obtain ⟨vT, eT⟩ := r
    cases eT with
    | some e => left; rfl
    | none =>
      simp only [Outcome.world]
      cases hP : ReadUncompPressure d a acc w1 with
      | panic w2 => right; left; rfl
      | ret r2 w2 =>
        obtain ⟨vP, eP⟩ := r2
        cases eP with
        | some e => right; left; rfl
        | none =>
          simp only [Outcome.world]
          cases hC : ReadCoeff d a w2 with
          | panic w3 => right; right; rfl
          | ret r3 w3 =>
            cases r3 with
            | some e => right; right; rfl
            | none =>
              simp only
              cases hv : (pressureCalc w3.Cal vT vP).value with
              | none => right; right; rfl
              | some p => right; right; rfl

/-- ReadPressurePa leaves no handle open, whatever the bus does. -/
theorem ReadPressurePa_handles (d : String) (a : Int) (acc : String) (w : World) :
    ∃ evs, (ReadPressurePa d a acc w).world.trace = w.trace ++ evs ∧
      handlesAfter evs = some 0 := by
  obtain ⟨e1, h1, b1⟩ := rawRead_handles 5 BMP280_TEMP_3BYTES d a acc w
  obtain ⟨e2, h2, b2⟩ := rawRead_handles 2 BMP280_PRES_3BYTES d a acc
    (ReadUncompTemprature d a acc w).world
  obtain ⟨e3, h3, b3⟩ := ReadCoeff_handles d a
    (ReadUncompPressure d a acc (ReadUncompTemprature d a acc w).world).world
  rw [← ReadUncompTemprature_eq] at h1
  rw [← ReadUncompPressure_eq] at h2
  rcases ReadPressurePa_world d a acc w with h | h | h
  · exact ⟨e1, by rw [h, h1], b1⟩
  · refine ⟨e1 ++ e2, by rw [h, h2, h1, List.append_assoc], ?_⟩
    rw [handlesAfter_append _ _ b1]; exact b2
  · refine ⟨e1 ++ (e2 ++ e3), by rw [h, h3, h2, h1, List.append_assoc, List.append_assoc], ?_⟩
    rw [handlesAfter_append _ _ b1, handlesAfter_append _ _ b2]; exact b3

/-- C14: for every bus behaviour, the events of one call of VerifiySensorID, ReadCoeff,
ReadUncompTemprature, ReadUncompPressure or ReadPressurePa leave no handle open and
never close a handle that is not open: every successful Open is followed by exactly one
Close, on every path (success, failed Open, failed register read or write, and the
var1 == 0 return of ReadPressurePa), whether the call returns or panics. -/
theorem C14_handles_released (d : String) (a : Int) (accuracy : String) (w : World) :
    handlesAfter (callEvents w (VerifiySensorID d a w).world) = some 0 ∧
    handlesAfter (callEvents w (ReadCoeff d a w).world) = some 0 ∧
    handlesAfter (callEvents w (ReadUncompTemprature d a accuracy w).world) = some 0 ∧
    handlesAfter (callEvents w (ReadUncompPressure d a accuracy w).world) = some 0 ∧
    handlesAfter (callEvents w (ReadPressurePa d a accuracy w).world) = some 0 := by
  obtain ⟨e1, h1, b1⟩ := VerifiySensorID_handles d a w
  obtain ⟨e2, h2, b2⟩ := ReadCoeff_handles d a w
  obtain ⟨e3, h3, b3⟩ := rawRead_handles 5 BMP280_TEMP_3BYTES d a accuracy w
  obtain ⟨e4, h4, b4⟩ := rawRead_handles 2 BMP280_PRES_3BYTES d a accuracy w
  obtain ⟨e5, h5, b5⟩ := ReadPressurePa_handles d a accuracy w
  rw [ReadUncompTemprature_eq, ReadUncompPressure_eq, callEvents_append _ _ _ h1,
    callEvents_append _ _ _ h2, callEvents_append _ _ _ h3, callEvents_append _ _ _ h4,
    callEvents_append _ _ _ h5]
  exact ⟨b1, b2, b3, b4, b5⟩

/-! ### The result as a function of the bus responses -/

theorem nextResp_congr {w w' : World} (hs : w.script = w'.script) :
    nextResp w = nextResp w' := by
  unfold nextResp
  rw [hs]

theorem script_of_nextResp_ok {w : World} {x : List Nat} {rest : List Resp}
    (h : nextResp w = (Resp.ok x, rest)) : w.script = Resp.ok x :: rest := by
  unfold nextResp at h
  split at h
  · simp at h
  · rename_i r rest' hsc
    simp only [Prod.mk.injEq] at h
    rw [hsc, h.1, h.2]

theorem i2cReadReg_fail (reg len : Nat) (buf : List Nat) (w : World) (e : GoError)
    (rest : List Resp) (h : nextResp w = (Resp.fail e, rest)) :
    i2cReadReg reg len buf w = (some e, buf,
      { w with script := rest }.emit (Ev.read reg len none)) := by
  simp [i2cReadReg, h]

theorem i2cWriteReg_fail (reg : Nat) (bs : List Nat) (w : World) (e : GoError)
    (rest : List Resp) (h : nextResp w = (Resp.fail e, rest)) :
    i2cWriteReg reg bs w = (some e, { w with script := rest }.emit (Ev.write reg bs false)) := by
  simp [i2cWriteReg, h]

/-- The outcome of the poll loop and the responses it leaves depend on the script only. -/
theorem pollLoop_det (n : Nat) : ∀ w w' : World, w.script = w'.script →
    (pollLoop n w).1 = (pollLoop n w').1 ∧
    (pollLoop n w).2.script = (pollLoop n w').2.script := by
  induction n with
  | zero => intro w w' hs; exact ⟨rfl, hs⟩
  | succ n ih =>
    intro w w' hs
    rcases hn : nextResp w with ⟨r, rest⟩
    have hn' : nextResp w' = (r, rest) := by rw [← nextResp_congr hs]; exact hn
    cases r with
    | ok x =>
      have hsw := script_of_nextResp_ok hn
      have hsw' := script_of_nextResp_ok hn'
      by_cases hx : x.getD 0 0 % 256 &&& 0x8 = 0
      · rw [pollLoop_idle n w x rest hsw hx, pollLoop_idle n w' x rest hsw' hx]
        exact ⟨rfl, rfl⟩
      · rw [pollLoop_busy n w x rest hsw hx, pollLoop_busy n w' x rest hsw' hx]
        exact ih _ _ rfl
    | fail e =>
      rw [pollLoop_fail n w e rest (i2cReadReg_fail _ _ _ w e rest hn),
        pollLoop_fail n w' e rest (i2cReadReg_fail _ _ _ w' e rest hn')]
      exact ⟨rfl, rfl⟩

/-- The result of the shared body and the responses it leaves depend on the script only. -/
theorem triggerPollRead_det (shift reg : Nat) (acc : String) (w w' : World)
    (hs : w.script = w'.script) :
    (triggerPollRead shift reg acc w).1 = (triggerPollRead shift reg acc w').1 ∧
    (triggerPollRead shift reg acc w).2.script = (triggerPollRead shift reg acc w').2.script := by
  rcases hn : nextResp w with ⟨r, rest⟩
  have hn' : nextResp w' = (r, rest) := by rw [← nextResp_congr hs]; exact hn
  cases r with
  | fail e =>
    simp only [triggerPollRead, i2cWriteReg_fail _ _ w e rest hn,
      i2cWriteReg_fail _ _ w' e rest hn']
    exact ⟨trivial, rfl⟩
  | ok x =>
    have hw := i2cWriteReg_ok BMP280_CNTR_MEAS_REG
      [1 ||| shl8 (getOversamplingRate acc) shift] w x rest (script_of_nextResp_ok hn)
    have hw' := i2cWriteReg_ok BMP280_CNTR_MEAS_REG
      [1 ||| shl8 (getOversamplingRate acc) shift] w' x rest (script_of_nextResp_ok hn')
    obtain ⟨hd1, hd2⟩ := pollLoop_det 30
      ({ w with script := rest }.emit
        (Ev.write BMP280_CNTR_MEAS_REG [1 ||| shl8 (getOversamplingRate acc) shift] true))
      ({ w' with script := rest }.emit
        (Ev.write BMP280_CNTR_MEAS_REG [1 ||| shl8 (getOversamplingRate acc) shift] true)) rfl
    rcases hp : pollLoop 30 ({ w with script := rest }.emit
        (Ev.write BMP280_CNTR_MEAS_REG [1 ||| shl8 (getOversamplingRate acc) shift] true))
      with ⟨perr, w2⟩
    rcases hp' : pollLoop 30 ({ w' with script := rest }.emit
        (Ev.write BMP280_CNTR_MEAS_REG [1 ||| shl8 (getOversamplingRate acc) shift] true))
      with ⟨perr', w2'⟩
    rw [hp, hp'] at hd1 hd2
    simp only at hd1 hd2
    subst hd1
    cases perr with
    | some e =>
      simp only [triggerPollRead, hw, hw', hp, hp']
      exact ⟨trivial, hd2⟩
    | none =>
      rcases hn2 : nextResp w2 with ⟨r2, rest2⟩
      have hn2' : nextResp w2' = (r2, rest2) := by rw [← nextResp_congr hd2]; exact hn2
      cases r2 with
      | ok y =>
        simp only [triggerPollRead, hw, hw', hp, hp',
          i2cReadReg_ok reg 3 w2.b3 w2 y rest2 (script_of_nextResp_ok hn2),
          i2cReadReg_ok reg 3 w2'.b3 w2' y rest2 (script_of_nextResp_ok hn2')]
        exact ⟨trivial, rfl⟩
      | fail e =>
        simp only [triggerPollRead, hw, hw', hp, hp',
          i2cReadReg_fail reg 3 w2.b3 w2 e rest2 hn2,
          i2cReadReg_fail reg 3 w2'.b3 w2' e rest2 hn2']
        exact ⟨trivial, rfl⟩

theorem Outcome.eq_ret_of_value {α : Type} (o : Outcome α) (r : α)
    (h : o.value = some r) : o = Outcome.ret r o.world := by
  cases o with
  | ret v w => simp only [Outcome.value, Option.some.injEq] at h; rw [h]; rfl
  | panic w => simp [Outcome.value] at h

/-- After a successful Open, a raw read returns normally, and its result and the
responses it leaves depend on the script only. -/
theorem rawRead_det (shift reg : Nat) (d : String) (a : Int) (acc : String) (w w' : World)
    (hs : w.script = w'.script) (hopen : ∃ x rest, w.script = Resp.ok x :: rest) :
    ∃ r, (rawRead shift reg d a acc w).value = some r ∧
      (rawRead shift reg d a acc w').value = some r ∧
      (rawRead shift reg d a acc w).world.script = (rawRead shift reg d a acc w').world.script := by
  obtain ⟨x, rest, hx⟩ := hopen
  have hx' : w'.script = Resp.ok x :: rest := by rw [← hs]; exact hx
  obtain ⟨h1, h2⟩ := triggerPollRead_det shift reg acc
    ({ w with script := rest }.emit (Ev.open d a true))
    ({ w' with script := rest }.emit (Ev.open d a true)) rfl
  refine ⟨(triggerPollRead shift reg acc
    ({ w with script := rest }.emit (Ev.open d a true))).1, ?_, ?_, ?_⟩
  · simp only [rawRead, i2cOpen_ok d a w x rest hx, deferredClose_true, Outcome.value]
  · simp only [rawRead, i2cOpen_ok d a w' x rest hx', deferredClose_true, Outcome.value, h1]
  · simp only [rawRead, i2cOpen_ok d a w x rest hx, i2cOpen_ok d a w' x rest hx',
      deferredClose_true, Outcome.world]
    exact h2

theorem delivered_length (len : Nat) (data : List Nat) : (delivered len data).length = len := by
  simp [delivered]

/-- ReadCoeff when Open and the block read both succeed: nil is returned and `Cal` is
the decoding of the block delivered. -/
theorem ReadCoeff_success (d : String) (a : Int) (w : World) (x y : List Nat)
    (rest : List Resp) (hs : w.script = Resp.ok x :: Resp.ok y :: rest) :
    (ReadCoeff d a w).value = some none ∧
    (ReadCoeff d a w).world.Cal = decodeCoeff (delivered BMP280_COEF_BYTES y) := by
  have h2 : ({ w with script := Resp.ok y :: rest }.emit (Ev.open d a true)).script
      = Resp.ok y :: rest := rfl
  have hb24 : ({ w with script := Resp.ok y :: rest }.emit (Ev.open d a true)).b24 = w.b24 := rfl
  have hr := i2cReadReg_ok BMP280_COEF_START BMP280_COEF_BYTES w.b24 _ y rest h2
  have hl : ¬ (delivered BMP280_COEF_BYTES y).length < BMP280_COEF_BYTES := by
    rw [delivered_length]; exact Nat.lt_irrefl _
  simp only [ReadCoeff, i2cOpen_ok d a w x _ hs, hb24, hr, deferredClose_true, Outcome.value,
    Outcome.world, binaryRead, hl, if_false]
  exact ⟨trivial, rfl⟩

/-- Unless Open and the block read both succeed, ReadCoeff performs a failed operation. -/
theorem ReadCoeff_failure_event (d : String) (a : Int) (w : World) :
    (∃ x y rest, w.script = Resp.ok x :: Resp.ok y :: rest) ∨
    (∃ ev ∈ callEvents w (ReadCoeff d a w).world, isFailedOp ev = true) := by
  rcases i2cOpen_cases d a w with ⟨x, rest, hs, ho⟩ | ⟨_, e, rest, ho⟩
  · rcases hn : nextResp ({ w with script := rest }.emit (Ev.open d a true)) with ⟨r, rest2⟩
    cases r with
    | ok y =>
      left
      have := script_of_nextResp_ok hn
      exact ⟨x, y, rest2, by rw [hs]; exact congrArg _ this⟩
    | fail e =>
      right
      refine ⟨Ev.read BMP280_COEF_START BMP280_COEF_BYTES none, ?_, rfl⟩
      have ht : (ReadCoeff d a w).world.trace = w.trace ++
          [Ev.open d a true, Ev.read BMP280_COEF_START BMP280_COEF_BYTES none, Ev.close] := by
        simp only [ReadCoeff, ho, i2cReadReg_fail _ _ _ _ e rest2 hn, deferredClose_true,
          Outcome.world]
        simp [World.emit]
      rw [callEvents_append _ _ _ ht]
      simp
  · right
    refine ⟨Ev.open d a false, ?_, rfl⟩
    have ht : (ReadCoeff d a w).world.trace = w.trace ++ [Ev.open d a false] := by
      simp only [ReadCoeff, ho, deferredClose_false_world]
      rfl
    rw [callEvents_append _ _ _ ht]
    simp

/-- The trace of ReadPressurePa extends the trace of its temperature read. -/
theorem ReadPressurePa_trace_T (d : String) (a : Int) (acc : String) (w : World) :
    ∃ r, (ReadPressurePa d a acc w).world.trace
      = (ReadUncompTemprature d a acc w).world.trace ++ r := by
  obtain ⟨e2, h2, _⟩ := rawRead_handles 2 BMP280_PRES_3BYTES d a acc
    (ReadUncompTemprature d a acc w).world
  obtain ⟨e3, h3, _⟩ := ReadCoeff_handles d a
    (ReadUncompPressure d a acc (ReadUncompTemprature d a acc w).world).world
  rw [← ReadUncompPressure_eq] at h2
  rcases ReadPressurePa_world d a acc w with h | h | h
  · exact ⟨[], by rw [h, List.append_nil]⟩
  · exact ⟨e2, by rw [h, h2]⟩
  · exact ⟨e2 ++ e3, by rw [h, h3, h2, List.append_assoc]⟩

/-- ReadPressurePa after a temperature read that returned a nil error. -/
theorem ReadPressurePa_after_T (d : String) (a : Int) (acc : String) (w w1 : World) (vT : Int)
    (hT : ReadUncompTemprature d a acc w = Outcome.ret (vT, none) w1) :
    (∃ r, (ReadPressurePa d a acc w).world.trace
      = (ReadUncompPressure d a acc w1).world.trace ++ r) ∧
    ∀ vP w2, ReadUncompPressure d a acc w1 = Outcome.ret (vP, none) w2 →
      (ReadPressurePa d a acc w).world = (ReadCoeff d a w2).world ∧
      ∀ w3, ReadCoeff d a w2 = Outcome.ret none w3 →
        (ReadPressurePa d a acc w).value =
          (pressureCalc w3.Cal vT vP).value.map (fun p => (p, none)) := by
  have hC : ∀ w2 vP, (match ReadCoeff d a w2 with
      | Outcome.panic w3 => (Outcome.panic w3 : Outcome (Nat × Option GoError))
      | Outcome.ret (some err) w3 => Outcome.ret (0, some err) w3
      | Outcome.ret none w3 =>
        match (pressureCalc w3.Cal vT vP).value with
        | none => Outcome.panic w3
        | some p => Outcome.ret (p, none) w3).world = (ReadCoeff d a w2).world := by
    intro w2 vP
    cases hc : ReadCoeff d a w2 with
    | panic w3 => rfl
    | ret r3 w3 =>
      cases r3 with
      | some e => rfl
      | none =>
        simp only
        cases (pressureCalc w3.Cal vT vP).value <;> rfl
  constructor
  · unfold ReadPressurePa
    rw [hT]
    simp only
    cases hP : ReadUncompPressure d a acc w1 with
    | panic w2 => exact ⟨[], by simp [Outcome.world]⟩
    | ret r2 w2 =>
      obtain ⟨vP, eP⟩ := r2
      cases eP with
      | some e => exact ⟨[], by simp [Outcome.world]⟩
      | none =>
        simp only
        rw [hC w2 vP]
        obtain ⟨e3, h3, _⟩ := ReadCoeff_handles d a w2
        exact ⟨e3, by rw [h3]; rfl⟩
  · intro vP w2 hP
    unfold ReadPressurePa
    rw [hT]
    simp only
    rw [hP]
    simp only
    refine ⟨hC w2 vP, ?_⟩
    intro w3 h3
    rw [h3]
    simp only
    cases (pressureCalc w3.Cal vT vP).value <;> rfl

/-- A raw read none of whose operations failed opened the bus and returned a nil error. -/
theorem rawRead_of_no_failure (shift reg : Nat) (d : String) (a : Int) (acc : String)
    (w : World) (hreg : reg ≠ BMP280_STATUS_REG)
    (hok : ∀ ev ∈ callEvents w (rawRead shift reg d a acc w).world, isFailedOp ev = false) :
    (∃ x rest, w.script = Resp.ok x :: rest) ∧
    ∀ v err, (rawRead shift reg d a acc w).value = some (v, err) → err = none := by
  obtain ⟨e1, ht1, _, _, hnopen, herr⟩ := rawRead_events shift reg d a acc w hreg
  rw [callEvents_append _ _ _ ht1] at hok
  constructor
  · by_contra hne
    have hall : ∀ x rest, w.script ≠ Resp.ok x :: rest := fun x rest h => hne ⟨x, rest, h⟩
    have h1 := hnopen hall
    have := hok (Ev.open d a false) (by rw [h1]; exact List.mem_singleton.2 rfl)
    simp [isFailedOp] at this
  · intro v err hv
    cases err with
    | none => rfl
    | some e =>
      obtain ⟨ev, hm, hf⟩ := herr v e hv
      rw [hok ev hm] at hf
      cases hf

/-- C13: take two states with the same bus responses to come and any package-level
variables (Cal, b1, b3, b24, earlier trace).  If every bus operation of ReadPressurePa
succeeds in the first, then ReadPressurePa returns the same result in both, with a nil
error: the pressure computed from the two raw values returned by the raw reads of this
call and from the decoding of the 24-byte block read in this call.  The Cal held before
the call plays no part. -/
theorem C13_state_independent (d : String) (a : Int) (accuracy : String) (w w' : World)
    (hs : w.script = w'.script)
    (hok : ∀ ev ∈ callEvents w (ReadPressurePa d a accuracy w).world, isFailedOp ev = false) :
    (ReadPressurePa d a accuracy w).value = (ReadPressurePa d a accuracy w').value ∧
    ∃ vT vP blk, (ReadUncompTemprature d a accuracy w).value = some (vT, none) ∧
      (ReadUncompPressure d a accuracy (ReadUncompTemprature d a accuracy w).world).value
        = some (vP, none) ∧
      blk.length = 24 ∧
      (ReadPressurePa d a accuracy w).world.Cal = decodeCoeff blk ∧
      (ReadPressurePa d a accuracy w).value
        = (pressureCalc (decodeCoeff blk) vT vP).value.map (fun p => (p, none)) := by
  -- temperature read
  obtain ⟨r0, hr0⟩ := ReadPressurePa_trace_T d a accuracy w
  obtain ⟨e1, ht1, _⟩ := rawRead_events 5 BMP280_TEMP_3BYTES d a accuracy w temp_reg_ne
  have ht1' : (ReadUncompTemprature d a accuracy w).world.trace = w.trace ++ e1 := ht1
  have hev1 : callEvents w (ReadPressurePa d a accuracy w).world = e1 ++ r0 :=
    callEvents_append _ _ _ (by rw [hr0, ht1', List.append_assoc])
  have hokT : ∀ ev ∈ callEvents w (rawRead 5 BMP280_TEMP_3BYTES d a accuracy w).world,
      isFailedOp ev = false := by
    intro ev hm
    rw [callEvents_append _ _ _ ht1] at hm
    exact hok ev (by rw [hev1]; exact List.mem_append_left _ hm)
  obtain ⟨hopen1, hnil1⟩ := rawRead_of_no_failure 5 BMP280_TEMP_3BYTES d a accuracy w
    temp_reg_ne hokT
  obtain ⟨⟨vT, eT⟩, hv1, hv1', hsc1⟩ :=
    rawRead_det 5 BMP280_TEMP_3BYTES d a accuracy w w' hs hopen1
  have heT := hnil1 vT eT hv1
  subst heT
  have hT : ReadUncompTemprature d a accuracy w
      = Outcome.ret (vT, none) (ReadUncompTemprature d a accuracy w).world :=
    Outcome.eq_ret_of_value _ _ hv1
  have hT' : ReadUncompTemprature d a accuracy w'
      = Outcome.ret (vT, none) (ReadUncompTemprature d a accuracy w').world :=
    Outcome.eq_ret_of_value _ _ hv1'
  obtain ⟨⟨r1, hr1⟩, hafter⟩ := ReadPressurePa_after_T d a accuracy w _ vT hT
  obtain ⟨_, hafter'⟩ := ReadPressurePa_after_T d a accuracy w' _ vT hT'
  -- pressure read
  obtain ⟨e2, ht2, _⟩ := rawRead_events 2 BMP280_PRES_3BYTES d a accuracy
    (ReadUncompTemprature d a accuracy w).world pres_reg_ne
  have ht2' : (ReadUncompPressure d a accuracy (ReadUncompTemprature d a accuracy w).world).world.trace
      = (ReadUncompTemprature d a accuracy w).world.trace ++ e2 := ht2
  have hev2 : callEvents w (ReadPressurePa d a accuracy w).world = e1 ++ (e2 ++ r1) :=
    callEvents_append _ _ _ (by rw [hr1, ht2', ht1', List.append_assoc, List.append_assoc])
  have hokP : ∀ ev ∈ callEvents (ReadUncompTemprature d a accuracy w).world
      (rawRead 2 BMP280_PRES_3BYTES d a accuracy (ReadUncompTemprature d a accuracy w).world).world,
      isFailedOp ev = false := by
    intro ev hm
    rw [callEvents_append _ _ _ ht2] at hm
    exact hok ev (by
      rw [hev2]; exact List.mem_append_right _ (List.mem_append_left _ hm))
  obtain ⟨hopen2, hnil2⟩ := rawRead_of_no_failure 2 BMP280_PRES_3BYTES d a accuracy _
    pres_reg_ne hokP
  obtain ⟨⟨vP, eP⟩, hv2, hv2', hsc2⟩ := rawRead_det 2 BMP280_PRES_3BYTES d a accuracy
    (ReadUncompTemprature d a accuracy w).world (ReadUncompTemprature d a accuracy w').world
    hsc1 hopen2
  have heP := hnil2 vP eP hv2
  subst heP
  have hP : ReadUncompPressure d a accuracy (ReadUncompTemprature d a accuracy w).world
      = Outcome.ret (vP, none)
        (ReadUncompPressure d a accuracy (ReadUncompTemprature d a accuracy w).world).world :=
    Outcome.eq_ret_of_value _ _ hv2
  have hP' : ReadUncompPressure d a accuracy (ReadUncompTemprature d a accuracy w').world
      = Outcome.ret (vP, none)
        (ReadUncompPressure d a accuracy (ReadUncompTemprature d a accuracy w').world).world :=
    Outcome.eq_ret_of_value _ _ hv2'
  obtain ⟨hw, hval⟩ := hafter vP _ hP
  obtain ⟨_, hval'⟩ := hafter' vP _ hP'
  -- calibration read
  obtain ⟨e3, ht3, _⟩ := ReadCoeff_handles d a
    (ReadUncompPressure d a accuracy (ReadUncompTemprature d a accuracy w).world).world
  have hev3 : callEvents w (ReadPressurePa d a accuracy w).world = e1 ++ (e2 ++ e3) :=
    callEvents_append _ _ _ (by
      rw [hw, ht3, ht2', ht1', List.append_assoc, List.append_assoc])
  rcases ReadCoeff_failure_event d a
      (ReadUncompPressure d a accuracy (ReadUncompTemprature d a accuracy w).world).world
    with ⟨x, y, rest, hsc⟩ | ⟨ev, hm, hf⟩
  · have hsc' : (ReadUncompPressure d a accuracy
        (ReadUncompTemprature d a accuracy w').world).world.script
        = Resp.ok x :: Resp.ok y :: rest := by
      rw [← hsc]; exact hsc2.symm
    obtain ⟨hc1, hc2⟩ := ReadCoeff_success d a _ x y rest hsc
    obtain ⟨hc1', hc2'⟩ := ReadCoeff_success d a _ x y rest hsc'
    have h3 := hval _ (Outcome.eq_ret_of_value _ _ hc1)
    have h3' := hval' _ (Outcome.eq_ret_of_value _ _ hc1')
    rw [hc2] at h3
    rw [hc2'] at h3'
    refine ⟨by rw [h3, h3'], vT, vP, delivered BMP280_COEF_BYTES y, hv1, hv2,
      delivered_length _ _, ?_, h3⟩
    rw [hw, hc2]
  · rw [callEvents_append _ _ _ ht3] at hm
    have := hok ev (by
      rw [hev3]; exact List.mem_append_right _ (List.mem_append_right _ hm))
    rw [this] at hf
    cases hf

/-- C13 on the datasheet's worked example, from the initial state and from a state with
other coefficients, buffer contents and trace. -/
theorem C13_state_independent_witness :
    (ReadPressurePa "/dev/i2c-1" 0x76 "STANDARD" (initWorld datasheetScript)).value
      = (ReadPressurePa "/dev/i2c-1" 0x76 "STANDARD" (dirtyWorld datasheetScript)).value :=
  (C13_state_independent "/dev/i2c-1" 0x76 "STANDARD" (initWorld datasheetScript)
    (dirtyWorld datasheetScript) rfl (by decide)).1

/-! ### The source functions refine the specification's state machine -/

theorem specRun_add (shift reg : Nat) (acc : String) (m n : Nat) :
    ∀ s, specRun shift reg acc (m + n) s = specRun shift reg acc n (specRun shift reg acc m s) := by
  induction m with
  | zero => intro s; simp [specRun]
  | succ m ih =>
    intro s
    rw [Nat.succ_add]
    simp only [specRun]
    exact ih _

theorem specRun_succ (shift reg : Nat) (acc : String) (n : Nat) (s : AcqState × World) :
    specRun shift reg acc (n + 1) s = specRun shift reg acc n (specStep shift reg acc s) := rfl

theorem specRun_complete (shift reg : Nat) (acc : String) (n raw : Nat) (w : World) :
    specRun shift reg acc n (AcqState.complete raw, w) = (AcqState.complete raw, w) := by
  induction n with
  | zero => rfl
  | succ n ih => simp only [specRun, specStep]; exact ih

theorem specRun_failed (shift reg : Nat) (acc : String) (n : Nat) (e : GoError) (w : World) :
    specRun shift reg acc n (AcqState.failed e, w) = (AcqState.failed e, w) := by
  induction n with
  | zero => rfl
  | succ n ih => simp only [specRun, specStep]; exact ih

theorem BusEq.nextResp {w ws : World} (h : BusEq w ws) : nextResp ws = nextResp w :=
  nextResp_congr h.1.symm

/-- The poll phase: the machine in `polling i` reaches, within `n + 1` steps, the state
that the source loop with `n = 30 - i` iterations left ends in, with the same bus. -/
theorem specPoll_refines (shift reg : Nat) (acc : String) (n : Nat) :
    ∀ (i : Nat) (w ws : World), i + n = 30 → BusEq w ws →
    ∃ k ws2, k ≤ n + 1 ∧
      specRun shift reg acc k (AcqState.polling i, ws) = (pollEnd (pollLoop n w).1, ws2) ∧
      BusEq (pollLoop n w).2 ws2 := by
  induction n with
  | zero =>
    intro i w ws hi hb
    have hi30 : 30 ≤ i := by omega
    exact ⟨1, ws, Nat.le_refl _, by simp [specRun, specStep, hi30, pollLoop, pollEnd], hb⟩
  | succ n ih =>
    intro i w ws hi hb
    have hi30 : ¬ 30 ≤ i := by omega
    rcases hn : nextResp w with ⟨r, rest⟩
    have hn' : nextResp ws = (r, rest) := by rw [hb.nextResp]; exact hn
    obtain ⟨hb1, hb2, hb3⟩ := hb
    cases r with
    | fail e =>
      refine ⟨1, { ws with script := rest }.emit (Ev.read BMP280_STATUS_REG 1 none),
        by omega, ?_, ?_⟩
      · rw [pollLoop_fail n w e rest (i2cReadReg_fail _ _ _ w e rest hn)]
        simp only [specRun, specStep, hi30, if_false, i2cReadReg_fail _ _ _ ws e rest hn', pollEnd]
      · rw [pollLoop_fail n w e rest (i2cReadReg_fail _ _ _ w e rest hn)]
        exact ⟨rfl, by simp [World.emit, hb2], hb3⟩
    | ok x =>
      have hsw := script_of_nextResp_ok hn
      have hsw' := script_of_nextResp_ok hn'
      by_cases hx : x.getD 0 0 % 256 &&& 0x8 = 0
      · refine ⟨1, { ws with script := rest }.emit
          (Ev.read BMP280_STATUS_REG 1 (some (delivered 1 x))), by omega, ?_, ?_⟩
        · rw [pollLoop_idle n w x rest hsw hx]
          simp only [specRun, specStep, hi30, if_false, i2cReadReg_ok _ _ _ ws x rest hsw',
            delivered_one, List.getD_cons_zero, hx, if_true, pollEnd]
        · rw [pollLoop_idle n w x rest hsw hx]
          exact ⟨rfl, by simp [World.emit, afterStatus, hb2, delivered_one], hb3⟩
      · have hbe0 : BusEq (timeSleep 5 (afterStatus w x rest))
            (timeSleep 5 ({ ws with script := rest }.emit
              (Ev.read BMP280_STATUS_REG 1 (some (delivered 1 x))))) :=
          ⟨rfl, by simp [timeSleep, World.emit, afterStatus, hb2, delivered_one], hb3⟩
        obtain ⟨k, ws2, hk, hrun, hbe⟩ := ih (i + 1)
          (timeSleep 5 (afterStatus w x rest))
          (timeSleep 5 ({ ws with script := rest }.emit
            (Ev.read BMP280_STATUS_REG 1 (some (delivered 1 x)))))
          (by omega) hbe0
        refine ⟨k + 1, ws2, by omega, ?_, ?_⟩
        · rw [pollLoop_busy n w x rest hsw hx]
          simp only [specRun, specStep, hi30, if_false, i2cReadReg_ok _ _ _ ws x rest hsw',
            delivered_one, List.getD_cons_zero, hx]
          rw [← hrun]
          simp only [delivered_one]
        · rw [pollLoop_busy n w x rest hsw hx]
          exact hbe

/-- The shared body of the source and the state machine started in `idle` reach the
same result over the same bus, when the byte shift of the source loses no bit. -/
theorem specRun_refines (shift reg : Nat) (acc : String) (w ws : World)
    (hshift : shl8 (getOversamplingRate acc) shift = getOversamplingRate acc <<< shift)
    (hb : BusEq w ws) :
    ∃ st ws2, specRun shift reg acc 34 (AcqState.idle, ws) = (st, ws2) ∧
      specResult st = some (triggerPollRead shift reg acc w).1 ∧
      BusEq (triggerPollRead shift reg acc w).2 ws2 := by
  rcases hn : nextResp w with ⟨r, rest⟩
  have hn' : nextResp ws = (r, rest) := by rw [hb.nextResp]; exact hn
  obtain ⟨hb1, hb2, hb3⟩ := hb
  cases r with
  | fail e =>
    refine ⟨AcqState.failed e, { ws with script := rest }.emit
      (Ev.write BMP280_CNTR_MEAS_REG [1 ||| (getOversamplingRate acc <<< shift)] false), ?_, ?_, ?_⟩
    · rw [show (34 : Nat) = 33 + 1 from rfl, specRun_succ]
      simp only [specStep, i2cWriteReg_fail _ _ ws e rest hn']
      exact specRun_failed shift reg acc 33 e _
    · simp only [triggerPollRead, i2cWriteReg_fail _ _ w e rest hn, specResult]
    · simp only [triggerPollRead, i2cWriteReg_fail _ _ w e rest hn, hshift]
      exact ⟨rfl, by simp [World.emit, hb2], hb3⟩
  | ok x =>
    have hw := i2cWriteReg_ok BMP280_CNTR_MEAS_REG
      [1 ||| shl8 (getOversamplingRate acc) shift] w x rest (script_of_nextResp_ok hn)
    have hws := i2cWriteReg_ok BMP280_CNTR_MEAS_REG
      [1 ||| (getOversamplingRate acc <<< shift)] ws x rest (script_of_nextResp_ok hn')
    have hbe1 : BusEq ({ w with script := rest }.emit
        (Ev.write BMP280_CNTR_MEAS_REG [1 ||| shl8 (getOversamplingRate acc) shift] true))
        ({ ws with script := rest }.emit
        (Ev.write BMP280_CNTR_MEAS_REG [1 ||| (getOversamplingRate acc <<< shift)] true)) :=
      ⟨rfl, by simp [World.emit, hb2, hshift], hb3⟩
    obtain ⟨k, ws2, hk, hrun, hbe2⟩ := specPoll_refines shift reg acc 30 0 _ _ rfl hbe1
    obtain ⟨m, hm⟩ : ∃ m, 32 = k + (m + 1) := ⟨31 - k, by omega⟩
    have hstart : specRun shift reg acc 34 (AcqState.idle, ws) =
        specRun shift reg acc (m + 1) (pollEnd (pollLoop 30 ({ w with script := rest }.emit
          (Ev.write BMP280_CNTR_MEAS_REG [1 ||| shl8 (getOversamplingRate acc) shift] true))).1,
          ws2) := by
      have h34 : specRun shift reg acc 34 (AcqState.idle, ws) = specRun shift reg acc 32
          (AcqState.polling 0, { ws with script := rest }.emit
            (Ev.write BMP280_CNTR_MEAS_REG [1 ||| (getOversamplingRate acc <<< shift)] true)) := by
        rw [show (34 : Nat) = 32 + 1 + 1 from rfl, specRun_succ, specRun_succ]
        simp only [specStep, hws]
      rw [h34, hm, specRun_add, hrun]
    rcases hp : pollLoop 30 ({ w with script := rest }.emit
        (Ev.write BMP280_CNTR_MEAS_REG [1 ||| shl8 (getOversamplingRate acc) shift] true))
      with ⟨perr, w2⟩
    rw [hp] at hstart hbe2
    simp only at hstart hbe2
    cases perr with
    | some e =>
      refine ⟨AcqState.failed e, ws2, ?_, ?_, ?_⟩
      · rw [hstart]; exact specRun_failed shift reg acc (m + 1) e ws2
      · simp only [triggerPollRead, hw, hp, specResult]
      · simp only [triggerPollRead, hw, hp]
        exact hbe2
    | none =>
      rcases hn2 : nextResp w2 with ⟨r2, rest2⟩
      have hn2' : nextResp ws2 = (r2, rest2) := by rw [hbe2.nextResp]; exact hn2
      obtain ⟨_, hc2, hc3⟩ := hbe2
      cases r2 with
      | fail e =>
        refine ⟨AcqState.failed e, { ws2 with script := rest2 }.emit (Ev.read reg 3 none),
          ?_, ?_, ?_⟩
        · rw [hstart]
          rw [specRun_succ]
          simp only [pollEnd, specStep, i2cReadReg_fail reg 3 [] ws2 e rest2 hn2']
          exact specRun_failed shift reg acc m e _
        · simp only [triggerPollRead, hw, hp, i2cReadReg_fail reg 3 w2.b3 w2 e rest2 hn2,
            specResult]
        · simp only [triggerPollRead, hw, hp, i2cReadReg_fail reg 3 w2.b3 w2 e rest2 hn2]
          exact ⟨rfl, by simp [World.emit, hc2], hc3⟩
      | ok y =>
        refine ⟨AcqState.complete ((delivered 3 y).getD 0 0 <<< 12 |||
            (delivered 3 y).getD 1 0 <<< 4 ||| (delivered 3 y).getD 2 0 >>> 4),
          { ws2 with script := rest2 }.emit (Ev.read reg 3 (some (delivered 3 y))), ?_, ?_, ?_⟩
        · rw [hstart]
          rw [specRun_succ]
          simp only [pollEnd, specStep,
            i2cReadReg_ok reg 3 [] ws2 y rest2 (script_of_nextResp_ok hn2')]
          exact specRun_complete shift reg acc m _ _
        · simp only [triggerPollRead, hw, hp,
            i2cReadReg_ok reg 3 w2.b3 w2 y rest2 (script_of_nextResp_ok hn2), specResult]
          rw [delivered_three]
          rw [(decodeRaw_bytes _ _ _ (mod_256_lt (y.getD 0 0)) (mod_256_lt (y.getD 1 0))
            (mod_256_lt (y.getD 2 0))).1]
          rfl
        · simp only [triggerPollRead, hw, hp,
            i2cReadReg_ok reg 3 w2.b3 w2 y rest2 (script_of_nextResp_ok hn2)]
          exact ⟨rfl, by simp [World.emit, hc2], hc3⟩

/-- After a successful Open, either raw read, as the shared procedure `rawRead`, agrees
with the specification's acquisition in its result and in its bus traffic, the Close
included. -/
theorem rawRead_refines (shift reg : Nat) (d : String) (a : Int) (acc : String) (w : World)
    (hshift : shl8 (getOversamplingRate acc) shift = getOversamplingRate acc <<< shift)
    (hopen : ∃ x rest, w.script = Resp.ok x :: rest) :
    (rawRead shift reg d a acc w).value = (specAcquire shift reg d a acc w).value ∧
    callEvents w (rawRead shift reg d a acc w).world
      = callEvents w (specAcquire shift reg d a acc w).world ∧
    (rawRead shift reg d a acc w).world.script = (specAcquire shift reg d a acc w).world.script := by
  obtain ⟨x, rest, hs⟩ := hopen
  have ho := i2cOpen_ok d a w x rest hs
  obtain ⟨st, ws2, hrun, hres, hbe⟩ := specRun_refines shift reg acc
    ({ w with script := rest }.emit (Ev.open d a true))
    ({ w with script := rest }.emit (Ev.open d a true)) hshift ⟨rfl, rfl, rfl⟩
  have htr : (rawRead shift reg d a acc w).world.trace
      = (specAcquire shift reg d a acc w).world.trace := by
    simp only [rawRead, specAcquire, ho, hrun, hres, deferredClose_true, Outcome.world]
    show (triggerPollRead shift reg acc _).2.trace ++ [Ev.close] = ws2.trace ++ [Ev.close]
    rw [hbe.2.1]
  refine ⟨?_, ?_, ?_⟩
  · simp only [rawRead, specAcquire, ho, hrun, hres, deferredClose_true, Outcome.value]
  · unfold callEvents
    rw [htr]
  · simp only [rawRead, specAcquire, ho, hrun, hres, deferredClose_true, Outcome.world]
    exact hbe.1

/-- After a failed Open the specification's acquisition returns the transport error,
while the source procedure, whose deferred Close runs on the nil device, panics; both
have performed the failed Open only. -/
theorem rawRead_failed_open (shift reg : Nat) (d : String) (a : Int) (acc : String)
    (w : World) (hfail : ∀ x rest, w.script ≠ Resp.ok x :: rest)
    (hp : w.nilClosePanics = true) :
    (rawRead shift reg d a acc w).value = none ∧
    (∃ e, (specAcquire shift reg d a acc w).value = some (0, some e)) ∧
    callEvents w (rawRead shift reg d a acc w).world = [Ev.open d a false] ∧
    callEvents w (specAcquire shift reg d a acc w).world = [Ev.open d a false] := by
  obtain ⟨e, rest, ho⟩ := i2cOpen_fail d a w hfail
  have hp1 : ({ w with script := rest }.emit (Ev.open d a false)).nilClosePanics = true := hp
  refine ⟨?_, ⟨e, ?_⟩, ?_, ?_⟩
  · simp only [rawRead, ho, deferredClose_false_panics _ _ hp1, Outcome.value]
  · simp only [specAcquire, ho, Outcome.value]
  · simp only [rawRead, ho, deferredClose_false_panics _ _ hp1, Outcome.world]
    exact callEvents_append _ _ _ rfl
  · simp only [specAcquire, ho, Outcome.world]
    exact callEvents_append _ _ _ rfl

/-- C16: whenever Open succeeds, ReadUncompTemprature returns the same (value, error)
and performs the same bus operations in the same order (trigger, polls and sleeps, data
read, Close) as the specification's shared trigger-poll-read sequence run with shift 5
and data register 0xFA, and ReadUncompPressure as the same sequence run with shift 2 and
data register 0xF7.  When Open fails the two differ: the specification's sequence
returns the transport error, whereas both source functions, whose deferred Close runs on
the nil device, panic after the failed Open and return nothing. -/
theorem C16_shared_sequence (d : String) (a : Int) (accuracy : String) (w : World) :
    ((∃ x rest, w.script = Resp.ok x :: rest) →
      ((ReadUncompTemprature d a accuracy w).value
          = (specAcquire 5 0xFA d a accuracy w).value ∧
        callEvents w (ReadUncompTemprature d a accuracy w).world
          = callEvents w (specAcquire 5 0xFA d a accuracy w).world ∧
        (ReadUncompTemprature d a accuracy w).world.script
          = (specAcquire 5 0xFA d a accuracy w).world.script) ∧
      ((ReadUncompPressure d a accuracy w).value
          = (specAcquire 2 0xF7 d a accuracy w).value ∧
        callEvents w (ReadUncompPressure d a accuracy w).world
          = callEvents w (specAcquire 2 0xF7 d a accuracy w).world ∧
        (ReadUncompPressure d a accuracy w).world.script
          = (specAcquire 2 0xF7 d a accuracy w).world.script)) ∧
    ((∀ x rest, w.script ≠ Resp.ok x :: rest) → w.nilClosePanics = true →
      ((ReadUncompTemprature d a accuracy w).value = none ∧
        (∃ e, (specAcquire 5 0xFA d a accuracy w).value = some (0, some e)) ∧
        callEvents w (ReadUncompTemprature d a accuracy w).world = [Ev.open d a false] ∧
        callEvents w (specAcquire 5 0xFA d a accuracy w).world = [Ev.open d a false]) ∧
      ((ReadUncompPressure d a accuracy w).value = none ∧
        (∃ e, (specAcquire 2 0xF7 d a accuracy w).value = some (0, some e)) ∧
        callEvents w (ReadUncompPressure d a accuracy w).world = [Ev.open d a false] ∧
        callEvents w (specAcquire 2 0xF7 d a accuracy w).world = [Ev.open d a false])) :=
  ⟨fun hopen =>
    ⟨rawRead_refines 5 BMP280_TEMP_3BYTES d a accuracy w (shl8_osr accuracy).1 hopen,
     rawRead_refines 2 BMP280_PRES_3BYTES d a accuracy w (shl8_osr accuracy).2 hopen⟩,
   fun hfail hp =>
    ⟨rawRead_failed_open 5 BMP280_TEMP_3BYTES d a accuracy w hfail hp,
     rawRead_failed_open 2 BMP280_PRES_3BYTES d a accuracy w hfail hp⟩⟩

/-- C16 at a bus whose Open fails with error 2: the specification's sequence returns
the error, the two source functions panic. -/
theorem C16_shared_sequence_witness :
    ((ReadUncompTemprature "/dev/i2c-1" 0x76 "STANDARD" (initWorld [Resp.fail 2])).value = none ∧
      (∃ e, (specAcquire 5 0xFA "/dev/i2c-1" 0x76 "STANDARD" (initWorld [Resp.fail 2])).value
        = some (0, some e)) ∧
      callEvents (initWorld [Resp.fail 2])
        (ReadUncompTemprature "/dev/i2c-1" 0x76 "STANDARD" (initWorld [Resp.fail 2])).world
        = [Ev.open "/dev/i2c-1" 0x76 false] ∧
      callEvents (initWorld [Resp.fail 2])
        (specAcquire 5 0xFA "/dev/i2c-1" 0x76 "STANDARD" (initWorld [Resp.fail 2])).world
        = [Ev.open "/dev/i2c-1" 0x76 false]) ∧
    ((ReadUncompPressure "/dev/i2c-1" 0x76 "STANDARD" (initWorld [Resp.fail 2])).value = none ∧
      (∃ e, (specAcquire 2 0xF7 "/dev/i2c-1" 0x76 "STANDARD" (initWorld [Resp.fail 2])).value
        = some (0, some e)) ∧
      callEvents (initWorld [Resp.fail 2])
        (ReadUncompPressure "/dev/i2c-1" 0x76 "STANDARD" (initWorld [Resp.fail 2])).world
        = [Ev.open "/dev/i2c-1" 0x76 false] ∧
      callEvents (initWorld [Resp.fail 2])
        (specAcquire 2 0xF7 "/dev/i2c-1" 0x76 "STANDARD" (initWorld [Resp.fail 2])).world
        = [Ev.open "/dev/i2c-1" 0x76 false]) :=
  (C16_shared_sequence "/dev/i2c-1" 0x76 "STANDARD" (initWorld [Resp.fail 2])).2
    (by simp [initWorld]) rfl

end BMP280
